import Mathlib

/-!
Shallow embedding of the rhythm-practice core of the `stubblefield`
repository: the timing judge (`js/timingJudge` source in `unnamed/part_011`),
the score manager (`js/scoreManager.js` in `unnamed/part_008`), the input
debouncer (`js/gameState.js`, `InputDebouncer`), and the clock & note
lifecycle engine (`GameState` in `unnamed/part_002`).

Modelling conventions:
* JavaScript numbers are modelled as exact rationals (`ℚ`); `Math.floor`
  is `Rat.floor`, `Math.ceil` is `Rat.ceil`, `Math.abs` is `jsAbs`,
  `Math.max` is `max`.
* `performance.now()` is passed explicitly as a `now : ℚ` argument to the
  operations that read it; the requestAnimationFrame game loop is the
  external tick driver, each of its iterations being one `update` call.
* JS object fields that are left `undefined` and only consumed through
  `x || false` / `x || 0` coercions are modelled by the coerced value.
* Mutable note objects are identified by an `id : ℕ` field (object
  identity); the pattern value held by the engine is treated as the
  immutable authored source that `reset` rebuilds from.
-/

namespace Stubblefield

/-- Judgment tiers, the keys of `TIMING_SCORES` / `judgmentCounts`. -/
inductive Tier where
  | PERFECT
  | GOOD
  | OK
  | EARLY
  | LATE
  | MISS
  | WRONG_NOTE
deriving DecidableEq, Repr

/-- `TIMING_WINDOWS` from `constants.js`. -/
def TIMING_WINDOWS_PERFECT : ℚ := 50

def TIMING_WINDOWS_GOOD : ℚ := 100

def TIMING_WINDOWS_OK : ℚ := 150

def TIMING_WINDOWS_MISS : ℚ := 200

/-- `TIMING_SCORES` from `constants.js`. -/
def TIMING_SCORES : Tier → Int
  | .PERFECT => 100
  | .GOOD => 70
  | .OK => 40
  | .EARLY => -10
  | .LATE => -10
  | .MISS => 0
  | .WRONG_NOTE => -20

/-- `GAME_CONFIG.COMBO_MULTIPLIER` (10% bonus per combo step). -/
def COMBO_MULTIPLIER : ℚ := 1 / 10

/-- `GAME_CONFIG.LOOKAHEAD_TIME` (show notes 3 seconds ahead). -/
def LOOKAHEAD_TIME : ℚ := 3000

/-- `GAME_CONFIG.COUNTDOWN_BEATS`. -/
def COUNTDOWN_BEATS : ℚ := 4

/-- `Math.abs` on a rational. -/
def jsAbs (q : ℚ) : ℚ :=
  if q < 0 then -q else q

/-- The judgment object returned by `TimingJudge.judgeHit`.  The wrong-note
branch of the source omits `isEarly`/`isLate`; every consumer reads them as
`judgment.isEarly || false`, so they are modelled as `false` there. -/
structure Judgment where
  judgment : Tier
  score : Int
  timeDiff : ℚ
  isCorrect : Bool
  isEarly : Bool
  isLate : Bool
deriving DecidableEq, Repr

/-- `TimingJudge.judgeHit(noteTime, hitTime, isCorrectNote)`. -/
def judgeHit (noteTime hitTime : ℚ) (isCorrectNote : Bool) : Judgment :=
  let timeDiff := hitTime - noteTime
  let absTimeDiff := jsAbs timeDiff
  if !isCorrectNote then
    { judgment := .WRONG_NOTE
      score := TIMING_SCORES .WRONG_NOTE
      timeDiff := timeDiff
      isCorrect := false
      isEarly := false
      isLate := false }
  else
    let j : Tier :=
      if absTimeDiff ≤ TIMING_WINDOWS_PERFECT then .PERFECT
      else if absTimeDiff ≤ TIMING_WINDOWS_GOOD then .GOOD
      else if absTimeDiff ≤ TIMING_WINDOWS_OK then .OK
      else if absTimeDiff ≤ TIMING_WINDOWS_MISS then
        (if timeDiff < 0 then .EARLY else .LATE)
      else .MISS
    { judgment := j
      score := TIMING_SCORES j
      timeDiff := timeDiff
      isCorrect := true
      isEarly := decide (timeDiff < 0)
      isLate := decide (timeDiff > 0) }

/-- The per-tier counters of `ScoreManager.judgmentCounts`. -/
structure JudgmentCounts where
  perfect : ℕ
  good : ℕ
  ok : ℕ
  early : ℕ
  late : ℕ
  miss : ℕ
  wrongNote : ℕ
deriving DecidableEq, Repr

def JudgmentCounts.zero : JudgmentCounts := ⟨0, 0, 0, 0, 0, 0, 0⟩

/-- `this.judgmentCounts[judgment.judgment]++`. -/
def JudgmentCounts.bump (c : JudgmentCounts) : Tier → JudgmentCounts
  | .PERFECT => { c with perfect := c.perfect + 1 }
  | .GOOD => { c with good := c.good + 1 }
  | .OK => { c with ok := c.ok + 1 }
  | .EARLY => { c with early := c.early + 1 }
  | .LATE => { c with late := c.late + 1 }
  | .MISS => { c with miss := c.miss + 1 }
  | .WRONG_NOTE => { c with wrongNote := c.wrongNote + 1 }

/-- State of `ScoreManager` (`scoreManager.js`). -/
structure ScoreManager where
  totalScore : Int
  combo : ℕ
  maxCombo : ℕ
  judgmentCounts : JudgmentCounts
  totalNotes : ℕ
  hitNotes : ℕ
deriving DecidableEq, Repr

/-- The `ScoreManager` constructor. -/
def ScoreManager.init : ScoreManager :=
  { totalScore := 0
    combo := 0
    maxCombo := 0
    judgmentCounts := JudgmentCounts.zero
    totalNotes := 0
    hitNotes := 0 }

/-- `ScoreManager.recordJudgment(judgment)`. -/
def ScoreManager.recordJudgment (m : ScoreManager) (j : Judgment) : ScoreManager :=
  let m := { m with
    judgmentCounts := m.judgmentCounts.bump j.judgment
    totalNotes := m.totalNotes + 1 }
  let comboMultiplier : ℚ := 1 + (m.combo : ℚ) * COMBO_MULTIPLIER
  let finalScore : Int := max 0 (Rat.floor ((j.score : ℚ) * comboMultiplier))
  let m := { m with totalScore := m.totalScore + finalScore }
  if j.judgment = .PERFECT ∨ j.judgment = .GOOD then
    { m with
      combo := m.combo + 1
      maxCombo := max m.maxCombo (m.combo + 1)
      hitNotes := m.hitNotes + 1 }
  else if j.judgment = .OK then
    { m with combo := 0, hitNotes := m.hitNotes + 1 }
  else
    { m with combo := 0 }

/-- `ScoreManager.recordMiss()`. -/
def ScoreManager.recordMiss (m : ScoreManager) : ScoreManager :=
  { m with
    judgmentCounts := { m.judgmentCounts with miss := m.judgmentCounts.miss + 1 }
    totalNotes := m.totalNotes + 1
    combo := 0 }

/-- A call into the score manager: a judged hit or an expired note. -/
inductive ScoreOp where
  | judge (j : Judgment)
  | miss
deriving DecidableEq, Repr

def ScoreOp.apply (m : ScoreManager) : ScoreOp → ScoreManager
  | .judge j => m.recordJudgment j
  | .miss => m.recordMiss

/-- State of `InputDebouncer` (`gameState.js`).  `lastTriggerTime` is the
JS `Map` of midi note → last accepted timestamp, kept in insertion order. -/
structure InputDebouncer where
  lastTriggerTime : List (ℕ × ℚ)
  debounceWindowMs : ℚ
  totalInputs : ℕ
  filteredInputs : ℕ
deriving DecidableEq, Repr

/-- `Map.prototype.get`. -/
def mapGet (m : List (ℕ × ℚ)) (k : ℕ) : Option ℚ :=
  (m.find? (fun p => p.1 == k)).map (fun p => p.2)

/-- `Map.prototype.set`: update in place when the key exists, else append. -/
def mapSet (m : List (ℕ × ℚ)) (k : ℕ) (v : ℚ) : List (ℕ × ℚ) :=
  if m.any (fun p => p.1 == k) then
    m.map (fun p => if p.1 == k then (k, v) else p)
  else
    m ++ [(k, v)]

/-- The `InputDebouncer` constructor (default window 30ms). -/
def InputDebouncer.init (debounceWindowMs : ℚ := 30) : InputDebouncer :=
  { lastTriggerTime := []
    debounceWindowMs := debounceWindowMs
    totalInputs := 0
    filteredInputs := 0 }

/-- `InputDebouncer.setDebounceWindow(ms)`: `this.debounceWindowMs = Math.max(0, ms)`. -/
def InputDebouncer.setDebounceWindow (d : InputDebouncer) (ms : ℚ) : InputDebouncer :=
  { d with debounceWindowMs := max 0 ms }

/-- `InputDebouncer.shouldAllowInput(midiNote, timestamp)`; returns the boolean
result together with the updated debouncer state. -/
def InputDebouncer.shouldAllowInput (d : InputDebouncer) (midiNote : ℕ) (timestamp : ℚ) :
    Bool × InputDebouncer :=
  let d := { d with totalInputs := d.totalInputs + 1 }
  if d.debounceWindowMs ≤ (0 : ℚ) then
    (true, { d with lastTriggerTime := mapSet d.lastTriggerTime midiNote timestamp })
  else
    match mapGet d.lastTriggerTime midiNote with
    | some lastTime =>
        let timeSinceLastTrigger := timestamp - lastTime
        if timeSinceLastTrigger < d.debounceWindowMs then
          (false, { d with filteredInputs := d.filteredInputs + 1 })
        else
          (true, { d with lastTriggerTime := mapSet d.lastTriggerTime midiNote timestamp })
    | none =>
        (true, { d with lastTriggerTime := mapSet d.lastTriggerTime midiNote timestamp })

/-- The per-note accuracy record attached when a note is judged. -/
structure Accuracy where
  timeDiff : Option ℚ
  rushing : Bool
  dragging : Bool
  wrongPad : Bool
  missed : Bool
  judgment : Tier
deriving DecidableEq, Repr

/-- A note object: immutable schedule (`time`, `midiNote`) plus mutable
lifecycle fields.  `id` models JS object identity.  Rendering/audio
bookkeeping (`sounded`, lane, velocity, colors) is outside the core and
not modelled. -/
structure Note where
  id : ℕ
  time : ℚ
  midiNote : ℕ
  judged : Bool
  hit : Bool
  judgment : Option Judgment
  accuracy : Option Accuracy
deriving DecidableEq, Repr

/-- A pattern: the authored ordered notes plus tempo. -/
structure Pattern where
  notes : List Note
  bpm : ℚ
deriving DecidableEq, Repr

/-- Synchronous notifications fired by the engine on the calling turn
(the `onCountdown` / `onMiss` / `onPatternComplete` / `onUpdate` callbacks). -/
inductive Notif where
  | countdown (value : Int)
  | missNote (id : ℕ)
  | patternComplete
  | onUpdate
deriving DecidableEq, Repr

/-- State of `GameState` (`unnamed/part_002`).  `lastFrameTime`,
`animationFrameId` and `wrongPadHits` (render-feedback bookkeeping) are
not modelled; callbacks are modelled as emitted `Notif` lists. -/
structure GameState where
  pattern : Pattern
  currentTime : ℚ
  startTime : Option ℚ
  isPlaying : Bool
  isPaused : Bool
  isCountingDown : Bool
  countdownValue : Int
  leadInTime : ℚ
  upcomingNotes : List Note
  activeNotes : List Note
  hitNotes : List Note
  missedNotes : List Note
  sequenceMode : Bool
  sequenceWaitingForHit : Bool
  sequenceCurrentNoteIndex : ℕ
  sequenceCorrectHits : ℕ
  sequenceWrongHits : ℕ
  sequencePausedTime : Option ℚ
deriving DecidableEq, Repr

/-- The `GameState` constructor. -/
def GameState.init (pattern : Pattern) : GameState :=
  { pattern := pattern
    currentTime := 0
    startTime := none
    isPlaying := false
    isPaused := false
    isCountingDown := false
    countdownValue := 0
    leadInTime := 0
    upcomingNotes := pattern.notes
    activeNotes := []
    hitNotes := []
    missedNotes := []
    sequenceMode := false
    sequenceWaitingForHit := false
    sequenceCurrentNoteIndex := 0
    sequenceCorrectHits := 0
    sequenceWrongHits := 0
    sequencePausedTime := none }

/-- `GameState.setSequenceMode(enabled)`. -/
def GameState.setSequenceMode (s : GameState) (enabled : Bool) : GameState :=
  { s with sequenceMode := enabled }

/-- `GameState.stop()`. -/
def GameState.stop (s : GameState) : GameState :=
  { s with isPlaying := false, isPaused := false }

/-- `GameState.start()` with `performance.now()` passed as `now`.  The
source also kicks off the self-scheduling `gameLoop`; its frame ticks are
the externally driven `update` calls of this model. -/
def GameState.start (now : ℚ) (s : GameState) : GameState :=
  if s.isPlaying then s
  else
    let s :=
      if s.currentTime = 0 then
        let beatDuration := 60 / s.pattern.bpm * 1000
        let lead := COUNTDOWN_BEATS * beatDuration
        { s with leadInTime := lead, currentTime := -lead, isCountingDown := true }
      else s
    { s with startTime := some (now - s.currentTime), isPlaying := true, isPaused := false }

/-- `GameState.pause()`. -/
def GameState.pause (s : GameState) : GameState :=
  if !s.isPlaying || s.isPaused then s
  else { s with isPlaying := false, isPaused := true }

/-- `GameState.resume()`. -/
def GameState.resume (now : ℚ) (s : GameState) : GameState :=
  if !s.isPaused then s
  else GameState.start now { s with isPaused := false }

/-- `GameState.continueLoop()`. -/
def GameState.continueLoop (now : ℚ) (s : GameState) : GameState :=
  if s.isPlaying then s
  else { s with startTime := some (now - s.currentTime), isPlaying := true, isPaused := false }

/-- `GameState.reset()`.  The JS spread keeps the authored fields of each
pattern note and clears the lifecycle flags; the pattern is modelled as the
immutable authored value. -/
def GameState.reset (s : GameState) : GameState :=
  let s := s.stop
  { s with
    currentTime := 0
    startTime := none
    isCountingDown := false
    countdownValue := 0
    upcomingNotes := s.pattern.notes.map (fun n => { n with hit := false, judged := false })
    activeNotes := []
    hitNotes := []
    missedNotes := []
    sequenceWaitingForHit := false
    sequenceCurrentNoteIndex := 0
    sequenceCorrectHits := 0
    sequenceWrongHits := 0
    sequencePausedTime := none }

/-- `GameState.updateActiveNotes()`: promote upcoming notes inside the
lookahead window to active, preserving order. -/
def GameState.updateActiveNotes (s : GameState) : GameState :=
  let lookaheadThreshold := s.currentTime + LOOKAHEAD_TIME
  { s with
    upcomingNotes := s.upcomingNotes.filter (fun n => !decide (n.time ≤ lookaheadThreshold))
    activeNotes := s.activeNotes ++ s.upcomingNotes.filter (fun n => decide (n.time ≤ lookaheadThreshold)) }

/-- The accuracy record attached to a note that expires unhit. -/
def missAccuracy : Accuracy :=
  { timeDiff := none
    rushing := false
    dragging := false
    wrongPad := false
    missed := true
    judgment := .MISS }

/-- `GameState.checkMissedNotes()`: sweep unjudged active notes older than
`currentTime - TIMING_WINDOWS.MISS` into the missed bucket, emitting one
miss notification per note. -/
def GameState.checkMissedNotes (s : GameState) : GameState × List Notif :=
  let missThreshold := s.currentTime - TIMING_WINDOWS_MISS
  let isNowMissed : Note → Bool := fun n => decide (n.time < missThreshold) && !n.judged
  let newlyMissed := (s.activeNotes.filter isNowMissed).map
    (fun n => { n with judged := true, accuracy := some missAccuracy })
  ({ s with
      activeNotes := s.activeNotes.filter (fun n => !isNowMissed n)
      missedNotes := s.missedNotes ++ newlyMissed },
   newlyMissed.map (fun n => .missNote n.id))

/-- `GameState.checkPatternComplete()`. -/
def GameState.checkPatternComplete (s : GameState) : GameState × List Notif :=
  if s.upcomingNotes.isEmpty && s.activeNotes.isEmpty && s.isPlaying then
    (s.stop, [.patternComplete])
  else (s, [])

/-- `GameState.recordHit(note, judgment)`: mark the note judged and hit,
attach its accuracy record, and move it from active to hit.  As in the
source, the hit is recorded even when the note is not in the active list
(`indexOf` returning `-1` skips only the splice). -/
def GameState.recordHit (s : GameState) (note : Note) (judgment : Judgment) : GameState :=
  let note' := { note with
    judged := true
    hit := true
    judgment := some judgment
    accuracy := some
      { timeDiff := some judgment.timeDiff
        rushing := judgment.isEarly
        dragging := judgment.isLate
        wrongPad := !judgment.isCorrect
        missed := false
        judgment := judgment.judgment } }
  { s with
    activeNotes := s.activeNotes.erase note
    hitNotes := s.hitNotes ++ [note'] }

/-- `GameState.updateSequenceMode(deltaTime)` (the `deltaTime` argument is
unused by the source); returns the new state and the emitted notifications. -/
def GameState.updateSequenceModeN (now : ℚ) (s : GameState) : GameState × List Notif :=
  let s := s.updateActiveNotes
  let s :=
    if !s.sequenceWaitingForHit && !s.activeNotes.isEmpty then
      match s.activeNotes.find? (fun n => !n.judged) with
      | some nextNote =>
          { s with
            sequenceWaitingForHit := true
            sequencePausedTime := some nextNote.time
            currentTime := nextNote.time - 50 }
      | none => s
    else s
  let s :=
    if s.sequenceWaitingForHit then
      let t := s.sequencePausedTime.getD 0 - 50
      { s with currentTime := t, startTime := some (now - t) }
    else
      { s with currentTime := now - s.startTime.getD 0 }
  let post :=
    if s.pattern.notes.length ≤ s.sequenceCurrentNoteIndex then s.checkPatternComplete
    else (s, [])
  (post.1, post.2 ++ [.onUpdate])

/-- The countdown block at the top of `GameState.update`: while the virtual
time is negative, derive the remaining beats and notify only on change;
once it reaches zero, leave CountingDown and notify once with 0. -/
def GameState.countdownStep (s : GameState) : GameState × List Notif :=
  if s.isCountingDown then
    if s.currentTime < 0 then
      let beatDuration := 60 / s.pattern.bpm * 1000
      let beatsRemaining : Int := Rat.ceil (-s.currentTime / beatDuration)
      if beatsRemaining ≠ s.countdownValue then
        ({ s with countdownValue := beatsRemaining }, [.countdown beatsRemaining])
      else (s, [])
    else
      ({ s with isCountingDown := false, countdownValue := 0 }, [.countdown 0])
  else (s, [])

/-- `GameState.update(deltaTime)` (the per-tick entry point), with
`performance.now()` passed as `now`; returns the new state and the
notifications fired on this turn. -/
def GameState.updateN (now : ℚ) (s : GameState) : GameState × List Notif :=
  if s.sequenceMode then s.updateSequenceModeN now
  else
    let s := { s with currentTime := now - s.startTime.getD 0 }
    let cd := s.countdownStep
    let s2 := cd.1.updateActiveNotes
    let post : GameState × List Notif :=
      if s2.currentTime ≥ 0 then
        let m := s2.checkMissedNotes
        let c := m.1.checkPatternComplete
        (c.1, m.2 ++ c.2)
      else (s2, [])
    (post.1, cd.2 ++ post.2 ++ [.onUpdate])

/-- The state part of `update`. -/
def GameState.update (now : ℚ) (s : GameState) : GameState :=
  (s.updateN now).1

/-- Stable insertion of `x` into a list sorted ascending by `key`:
`x` goes after every element whose key is `≤ key x`. -/
def insertByKey (key : α → ℚ) (x : α) : List α → List α
  | [] => [x]
  | y :: l => if key x < key y then x :: y :: l else y :: insertByKey key x l

/-- Stable ascending sort by `key`, modelling `Array.prototype.sort` with
the comparator `(a, b) => key(a) - key(b)`. -/
def sortByKey (key : α → ℚ) (l : List α) : List α :=
  l.foldl (fun acc x => insertByKey key x acc) []

/-- `GameState.getAllNotesWithAccuracy()`: hit and missed notes sorted by
schedule time. -/
def GameState.getAllNotesWithAccuracy (s : GameState) : List Note :=
  sortByKey Note.time (s.hitNotes ++ s.missedNotes)

/-- JS truncating division used by the `%` operator: round toward zero. -/
def jsTrunc (q : ℚ) : Int :=
  if q < 0 then Rat.ceil q else Rat.floor q

/-- The JS remainder operator `a % b`. -/
def jsMod (a b : ℚ) : ℚ :=
  a - b * (jsTrunc (a / b) : ℚ)

/-- The accuracy record of an averaged (cross-loop) note. -/
structure AvgAccuracy where
  timeDiff : Option ℚ
  rushing : Bool
  dragging : Bool
  wrongPad : Bool
  missed : Bool
  judgment : Tier
  loopResults : List Tier
deriving DecidableEq, Repr

/-- An entry of the list returned by `getAveragedNotesForVisualization`. -/
structure VisNote where
  time : ℚ
  midiNote : ℕ
  accuracy : Option AvgAccuracy
deriving DecidableEq, Repr

/-- The `noteGroups` map: loop-relative position → notes pushed into that
group, in JS `Map` insertion order. -/
abbrev NoteGroups := List (ℚ × List Note)

/-- The scan for an existing group within the 10ms grouping tolerance on
the same midi note (`group[0].midiNote === note.midiNote`). -/
def findGroupKey (groups : NoteGroups) (pos : ℚ) (midi : ℕ) : Option ℚ :=
  (groups.find? (fun g =>
    decide (jsAbs (g.1 - pos) < 10) &&
      (match g.2 with
       | [] => false
       | m :: _ => m.midiNote == midi))).map (fun g => g.1)

/-- `noteGroups.get(key).push(note)`. -/
def addToGroup (groups : NoteGroups) (key : ℚ) (n : Note) : NoteGroups :=
  groups.map (fun g => if g.1 == key then (g.1, g.2 ++ [n]) else g)

/-- `noteGroups.set(key, v)`: overwrite an existing key in place, else
append. -/
def setGroup (groups : NoteGroups) (key : ℚ) (v : List Note) : NoteGroups :=
  if groups.any (fun g => g.1 == key) then
    groups.map (fun g => if g.1 == key then (key, v) else g)
  else
    groups ++ [(key, v)]

/-- The grouping pass of `getAveragedNotesForVisualization`. -/
def buildGroups (singlePatternDuration : ℚ) (allNotes : List Note) : NoteGroups :=
  allNotes.foldl (fun groups note =>
    let positionInPattern := jsMod note.time singlePatternDuration
    match findGroupKey groups positionInPattern note.midiNote with
    | some k => addToGroup groups k note
    | none => setGroup groups positionInPattern [note]) []

/-- The per-group counters accumulated by the averaging pass. -/
structure GroupCounts where
  perfect : ℕ
  good : ℕ
  ok : ℕ
  early : ℕ
  late : ℕ
  miss : ℕ
  wrongPad : ℕ
  totalTimeDiff : ℚ
  timeDiffCount : ℕ
deriving DecidableEq, Repr

def GroupCounts.zero : GroupCounts := ⟨0, 0, 0, 0, 0, 0, 0, 0, 0⟩

/-- The outcome-classification part of the counting loop. -/
def GroupCounts.classify (c : GroupCounts) (a : Accuracy) : GroupCounts :=
  if a.missed then { c with miss := c.miss + 1 }
  else if a.wrongPad then { c with wrongPad := c.wrongPad + 1 }
  else
    match a.judgment with
    | .PERFECT => { c with perfect := c.perfect + 1 }
    | .GOOD => { c with good := c.good + 1 }
    | .OK => { c with ok := c.ok + 1 }
    | .EARLY => { c with early := c.early + 1 }
    | .LATE => { c with late := c.late + 1 }
    | _ => c

/-- One step of the counting loop over a group's notes. -/
def GroupCounts.step (c : GroupCounts) (n : Note) : GroupCounts :=
  match n.accuracy with
  | some a =>
      let c := c.classify a
      match a.timeDiff with
      | some d => { c with totalTimeDiff := c.totalTimeDiff + d, timeDiffCount := c.timeDiffCount + 1 }
      | none => c
  | none => { c with miss := c.miss + 1 }

/-- The non-null per-note time offsets of a group, as the claim words it. -/
def groupTimeDiffs (notes : List Note) : List ℚ :=
  notes.filterMap (fun n => n.accuracy.bind Accuracy.timeDiff)

/-- The tier rule exactly as the claim words it: the dominant quality tier
by relative count among Perfect/Good/Ok/Early/Late (ties resolved by the
listed order).  This definition follows the claim's words, not the source,
and exists to be compared against the code's `avgJudgment`. -/
def specDominantQualityTier (c : GroupCounts) : Tier :=
  let m := max c.perfect (max c.good (max c.ok (max c.early c.late)))
  if c.perfect = m then .PERFECT
  else if c.good = m then .GOOD
  else if c.ok = m then .OK
  else if c.early = m then .EARLY
  else .LATE

/-- The counters accumulated over a whole group. -/
def countGroup (notes : List Note) : GroupCounts :=
  notes.foldl GroupCounts.step GroupCounts.zero

/-- The `avgJudgment` cascade of `getAveragedNotesForVisualization`. -/
def avgJudgment (c : GroupCounts) (total : ℕ) : Tier :=
  let hitCount : Int := (total : Int) - c.miss - c.wrongPad
  if (c.miss : ℚ) ≥ (total : ℚ) / 2 then .MISS
  else if (c.wrongPad : ℚ) ≥ (total : ℚ) / 2 then .WRONG_NOTE
  else if (c.perfect : ℚ) ≥ (hitCount : ℚ) / 2 then .PERFECT
  else if (c.good : ℚ) ≥ (hitCount : ℚ) / 3 then .GOOD
  else if (c.ok : ℚ) ≥ (hitCount : ℚ) / 3 then .OK
  else if c.early > c.late then .EARLY
  else if c.late > c.early then .LATE
  else .OK

/-- Collapse one group to its synthetic averaged note. -/
def collapseGroup (g : ℚ × List Note) : VisNote :=
  let notes := g.2
  let total := notes.length
  let c := countGroup notes
  { time := g.1
    midiNote :=
      match notes with
      | [] => 0
      | m :: _ => m.midiNote
    accuracy := some
      { timeDiff :=
          if 0 < c.timeDiffCount then some (c.totalTimeDiff / (c.timeDiffCount : ℚ)) else none
        rushing := decide (c.early > c.late)
        dragging := decide (c.late > c.early)
        wrongPad := decide ((c.wrongPad : ℚ) ≥ (total : ℚ) / 2)
        missed := decide ((c.miss : ℚ) ≥ (total : ℚ) / 2)
        judgment := avgJudgment c total
        loopResults := notes.map (fun n => ((n.accuracy.map Accuracy.judgment).getD .MISS)) } }

/-- Projection of a per-note record to the visualization shape, used by the
single-loop branch which returns the judged notes themselves. -/
def noteToVis (n : Note) : VisNote :=
  { time := n.time
    midiNote := n.midiNote
    accuracy := n.accuracy.map (fun a =>
      { timeDiff := a.timeDiff
        rushing := a.rushing
        dragging := a.dragging
        wrongPad := a.wrongPad
        missed := a.missed
        judgment := a.judgment
        loopResults := [] }) }

/-- `GameState.getAveragedNotesForVisualization(singlePatternDuration, loopCount)`. -/
def GameState.getAveragedNotesForVisualization (s : GameState)
    (singlePatternDuration : ℚ) (loopCount : ℕ) : List VisNote :=
  if loopCount ≤ 1 then (s.getAllNotesWithAccuracy).map noteToVis
  else
    let allNotes := s.getAllNotesWithAccuracy
    let groups := buildGroups singlePatternDuration allNotes
    sortByKey VisNote.time (groups.map collapseGroup)

/-! ### Driver-visible engine operations and reachability -/

/-- The engine operations named by the lifecycle invariant: start, the
per-tick update, recording a hit, pause, resume, reset. -/
inductive EngineOp where
  | start (now : ℚ)
  | tick (now : ℚ)
  | recordHit (n : Note) (j : Judgment)
  | pause
  | resume (now : ℚ)
  | reset

def EngineOp.apply (s : GameState) : EngineOp → GameState
  | .start now => GameState.start now s
  | .tick now => GameState.update now s
  | .recordHit n j => s.recordHit n j
  | .pause => s.pause
  | .resume now => GameState.resume now s
  | .reset => s.reset

def EngineOp.isReset : EngineOp → Bool
  | .reset => true
  | _ => false

/-- Apply a sequence of operations in order. -/
def applyOps (s : GameState) (ops : List EngineOp) : GameState :=
  ops.foldl EngineOp.apply s

/-- A pattern as authored: distinct note identities, nothing judged yet. -/
def WFPattern (p : Pattern) : Prop :=
  (p.notes.map Note.id).Nodup ∧ ∀ n ∈ p.notes, n.judged = false

/-- The identities of the notes across the four lifecycle buckets. -/
def bucketIds (s : GameState) : List ℕ :=
  (s.upcomingNotes ++ s.activeNotes ++ s.hitNotes ++ s.missedNotes).map Note.id

/-- Engine states reachable from construction by the claim's operations,
`recordHit` being applied only to a note currently in Active. -/
inductive Reachable (p : Pattern) : GameState → Prop where
  | init : Reachable p (GameState.init p)
  | start (now : ℚ) {s : GameState} :
      Reachable p s → Reachable p (GameState.start now s)
  | tick (now : ℚ) {s : GameState} :
      Reachable p s → Reachable p (GameState.update now s)
  | recordHit (n : Note) (j : Judgment) {s : GameState} :
      Reachable p s → n ∈ s.activeNotes → Reachable p (s.recordHit n j)
  | pause {s : GameState} : Reachable p s → Reachable p s.pause
  | resume (now : ℚ) {s : GameState} :
      Reachable p s → Reachable p (GameState.resume now s)
  | reset {s : GameState} : Reachable p s → Reachable p s.reset

/-! ### Concrete fixtures used by the scenario theorems below -/

/-- An authored (unjudged) note. -/
def mkNote (id : ℕ) (time : ℚ) (midiNote : ℕ) : Note :=
  { id := id
    time := time
    midiNote := midiNote
    judged := false
    hit := false
    judgment := none
    accuracy := none }

/-- A judged hit note carrying a clean accuracy record. -/
def mkJudgedHit (id : ℕ) (time : ℚ) (midiNote : ℕ) (tier : Tier) (td : ℚ) : Note :=
  { id := id
    time := time
    midiNote := midiNote
    judged := true
    hit := true
    judgment := none
    accuracy := some
      { timeDiff := some td
        rushing := decide (td < 0)
        dragging := decide (0 < td)
        wrongPad := false
        missed := false
        judgment := tier } }

/-- A 120 bpm pattern with a single note at 2500 ms. -/
def patternSingleNote : Pattern :=
  { notes := [mkNote 0 2500 36], bpm := 120 }

/-- A 120 bpm pattern with notes at 2900 ms and 5800 ms. -/
def patternTwoNotes : Pattern :=
  { notes := [mkNote 0 2900 36, mkNote 1 5800 38], bpm := 120 }

/-- A session state reached by starting `patternSingleNote` at wall time 0
and ticking at wall time 2000: the countdown has just elapsed and the
virtual time is exactly 0 while playing. -/
def playingAtZeroState : GameState :=
  GameState.update 2000 (GameState.start 0 (GameState.init patternSingleNote))

/-- A session state reached by starting `patternSingleNote` at wall time 0
and ticking at wall time 2500: playing, with virtual time 500. -/
def playingAt500State : GameState :=
  GameState.update 2500 (GameState.start 0 (GameState.init patternSingleNote))

/-- A sequence-mode session over `patternTwoNotes`, entered at wall time 0
without a countdown. -/
def sequenceModeState : GameState :=
  GameState.continueLoop 0 ((GameState.init patternTwoNotes).setSequenceMode true)

/-- A finished five-loop session (single-loop duration 2000 ms) in which the
note at loop position 500 ms on channel 36 was judged Good twice and Ok
three times. -/
def fiveLoopState : GameState :=
  { GameState.init { notes := [], bpm := 120 } with
    hitNotes :=
      [mkJudgedHit 0 500 36 .GOOD 60, mkJudgedHit 1 2500 36 .GOOD 60,
       mkJudgedHit 2 4500 36 .OK 120, mkJudgedHit 3 6500 36 .OK 120,
       mkJudgedHit 4 8500 36 .OK 120] }

/-! ## Theorems

The arithmetic of core `Rat` operations is made transparent to the
elaborator below so that `decide` can evaluate the embedded operations on
concrete states; this does not change any definition. -/

section Claims

attribute [local semireducible] Rat.sub Rat.add Rat.mul Rat.inv Rat.ofScientific

/-- `jsAbs` is the absolute value. -/
theorem jsAbs_eq_abs (q : ℚ) : jsAbs q = |q| := by
  by_cases h : q < 0
  · simp [jsAbs, h, abs_of_neg h]
  · simp [jsAbs, h, abs_of_nonneg (not_lt.mp h)]

/-- The quality classification of `judgeHit` on the correct channel, as a
function of the signed offset. -/
theorem judgeHit_true_judgment (noteTime hitTime : ℚ) :
    (judgeHit noteTime hitTime true).judgment =
      (if |hitTime - noteTime| ≤ 50 then Tier.PERFECT
       else if |hitTime - noteTime| ≤ 100 then .GOOD
       else if |hitTime - noteTime| ≤ 150 then .OK
       else if |hitTime - noteTime| ≤ 200 then
         (if hitTime - noteTime < 0 then .EARLY else .LATE)
       else .MISS) := by
  simp only [judgeHit, jsAbs_eq_abs, TIMING_WINDOWS_PERFECT, TIMING_WINDOWS_GOOD,
    TIMING_WINDOWS_OK, TIMING_WINDOWS_MISS, Bool.not_true, Bool.false_eq_true, if_false]

/-- Claim C3. `judgeHit(noteTime, hitTime, isCorrectChannel)` is a pure function
of its arguments (its result depends only on the signed offset
`hitTime − noteTime` and the channel flag): a wrong channel yields
`WRONG_NOTE` regardless of timing; otherwise the absolute offset is
classified against 50/100/150/200 ms (Perfect/Good/Ok, then Early for a
negative and Late for a positive offset within the 200 ms miss boundary,
and Miss beyond it); a note at 1000 ms hit at 1040 ms is Perfect with
`timeDiff = 40`, hit at 920 ms is Good with `timeDiff = -80`. -/
theorem judgeHit_classification (noteTime hitTime : ℚ) :
    (judgeHit noteTime hitTime false).judgment = Tier.WRONG_NOTE
    ∧ (judgeHit noteTime hitTime true).timeDiff = hitTime - noteTime
    ∧ (judgeHit noteTime hitTime false).timeDiff = hitTime - noteTime
    ∧ ((judgeHit noteTime hitTime true).judgment = Tier.PERFECT
        ↔ |hitTime - noteTime| ≤ 50)
    ∧ ((judgeHit noteTime hitTime true).judgment = Tier.GOOD
        ↔ 50 < |hitTime - noteTime| ∧ |hitTime - noteTime| ≤ 100)
    ∧ ((judgeHit noteTime hitTime true).judgment = Tier.OK
        ↔ 100 < |hitTime - noteTime| ∧ |hitTime - noteTime| ≤ 150)
    ∧ ((judgeHit noteTime hitTime true).judgment = Tier.EARLY
        ↔ 150 < |hitTime - noteTime| ∧ |hitTime - noteTime| ≤ 200 ∧ hitTime - noteTime < 0)
    ∧ ((judgeHit noteTime hitTime true).judgment = Tier.LATE
        ↔ 150 < |hitTime - noteTime| ∧ |hitTime - noteTime| ≤ 200 ∧ 0 < hitTime - noteTime)
    ∧ ((judgeHit noteTime hitTime true).judgment = Tier.MISS
        ↔ 200 < |hitTime - noteTime|)
    ∧ (∀ b, judgeHit noteTime hitTime b = judgeHit 0 (hitTime - noteTime) b)
    ∧ judgeHit 1000 1040 true =
        { judgment := .PERFECT, score := 100, timeDiff := 40,
          isCorrect := true, isEarly := false, isLate := true }
    ∧ judgeHit 1000 920 true =
        { judgment := .GOOD, score := 70, timeDiff := -80,
          isCorrect := true, isEarly := true, isLate := false } := by
  have hpure : ∀ b, judgeHit noteTime hitTime b = judgeHit 0 (hitTime - noteTime) b := by
    intro b
    cases b <;> simp [judgeHit]
  refine ⟨by simp [judgeHit], by simp [judgeHit], by simp [judgeHit],
    ?_, ?_, ?_, ?_, ?_, ?_, hpure, by decide, by decide⟩
  all_goals
    rw [judgeHit_true_judgment]
    rcases abs_cases (hitTime - noteTime) with ⟨he, hs⟩ | ⟨he, hs⟩ <;>
    split_ifs with h1 h2 h3 h4 h5 <;>
      constructor <;>
        (intro h
         first
           | rfl
           | (exact absurd h (by decide))
           | (exfalso
              rcases h with ⟨ha, hb, hc⟩
              linarith)
           | (exfalso
              rcases h with ⟨ha, hb⟩
              linarith)
           | (refine ⟨by linarith, by linarith, by linarith⟩)
           | (refine ⟨by linarith, by linarith⟩)
           | linarith)

/-- Claim C1, counterexample. The claim says an Ok judgment leaves the combo
unchanged.  In the code an `OK` judgment resets the combo to zero: after one
Perfect the combo is 1, and a following Ok judgment drops it to 0 instead of
keeping it at 1. -/
theorem combo_ok_resets_counterexample :
    (ScoreManager.init.recordJudgment (judgeHit 1000 1040 true)).combo = 1
    ∧ (judgeHit 1000 1120 true).judgment = Tier.OK
    ∧ ((ScoreManager.init.recordJudgment (judgeHit 1000 1040 true)).recordJudgment
        (judgeHit 1000 1120 true)).combo = 0
    ∧ (0 : ℕ) ≠ 1 := by
  refine ⟨by decide, ?_, by decide, by decide⟩
  decide

/-- Claim C1, amended. The combo counter increments by one exactly on Perfect
and Good judgments and resets to zero on every other judgment — Ok included
(the repository's own test notes "OK resets combo in this implementation");
`maxCombo` is raised to the new combo exactly on Perfect/Good; three
consecutive Perfect judgments followed by one Miss produce the combo
sequence [1, 2, 3, 0] with `maxCombo = 3`. -/
theorem recordJudgment_combo_rule (m : ScoreManager) (j : Judgment) :
    ((m.recordJudgment j).combo =
      if j.judgment = Tier.PERFECT ∨ j.judgment = Tier.GOOD then m.combo + 1 else 0)
    ∧ ((m.recordJudgment j).maxCombo =
      if j.judgment = Tier.PERFECT ∨ j.judgment = Tier.GOOD then
        max m.maxCombo (m.combo + 1)
      else m.maxCombo)
    ∧ (ScoreManager.init.recordJudgment (judgeHit 1000 1040 true)).combo = 1
    ∧ ((ScoreManager.init.recordJudgment (judgeHit 1000 1040 true)).recordJudgment
        (judgeHit 1000 1040 true)).combo = 2
    ∧ (((ScoreManager.init.recordJudgment (judgeHit 1000 1040 true)).recordJudgment
        (judgeHit 1000 1040 true)).recordJudgment (judgeHit 1000 1040 true)).combo = 3
    ∧ ((((ScoreManager.init.recordJudgment (judgeHit 1000 1040 true)).recordJudgment
        (judgeHit 1000 1040 true)).recordJudgment (judgeHit 1000 1040 true)).recordJudgment
        (judgeHit 1000 1300 true)).combo = 0
    ∧ ((((ScoreManager.init.recordJudgment (judgeHit 1000 1040 true)).recordJudgment
        (judgeHit 1000 1040 true)).recordJudgment (judgeHit 1000 1040 true)).recordJudgment
        (judgeHit 1000 1300 true)).maxCombo = 3
    ∧ (judgeHit 1000 1300 true).judgment = Tier.MISS := by
  refine ⟨?_, ?_, by decide, by decide, by decide, by decide, by decide, by decide⟩
  all_goals
    cases hj : j.judgment <;>
      simp [ScoreManager.recordJudgment, hj]

/-- A single score-manager call never decreases `totalScore`. -/
theorem totalScore_step_mono (m : ScoreManager) (op : ScoreOp) :
    m.totalScore ≤ (ScoreOp.apply m op).totalScore := by
  cases op with
  | judge j =>
      show m.totalScore ≤ (m.recordJudgment j).totalScore
      have hstep : ∀ m' : ScoreManager,
          m'.totalScore ≤ m'.totalScore + max 0 (Rat.floor ((j.score : ℚ) *
            (1 + (m'.combo : ℚ) * COMBO_MULTIPLIER))) := by
        intro m'
        exact le_add_of_nonneg_right (le_max_left 0 _)
      rcases hcase : j.judgment <;>
        simpa [ScoreManager.recordJudgment, hcase] using hstep _
  | miss =>
      simp [ScoreOp.apply, ScoreManager.recordMiss]

/-- Claim C10. Across any sequence of `recordJudgment` / `recordMiss` calls the
cumulative `totalScore` is monotonically non-decreasing: every judgment adds
exactly `max 0 ⌊base · (1 + combo/10)⌋` — the combo-multiplied base score
clamped to at least zero — so penalty tiers never reduce the total, and a
miss adds nothing. -/
theorem totalScore_monotone (s : ScoreManager) (ops : List ScoreOp) :
    s.totalScore ≤ (ops.foldl ScoreOp.apply s).totalScore
    ∧ (∀ j : Judgment, (s.recordJudgment j).totalScore
        = s.totalScore + max 0 (Rat.floor ((j.score : ℚ) *
            (1 + (s.combo : ℚ) * COMBO_MULTIPLIER))))
    ∧ (s.recordMiss).totalScore = s.totalScore := by
  refine ⟨?_, ?_, by simp [ScoreManager.recordMiss]⟩
  · induction ops generalizing s with
    | nil => simp
    | cons op rest ih =>
        calc s.totalScore ≤ (ScoreOp.apply s op).totalScore := totalScore_step_mono s op
          _ ≤ ((op :: rest).foldl ScoreOp.apply s).totalScore := by
              simpa using ih (ScoreOp.apply s op)
  · intro j
    rcases hcase : j.judgment <;>
      simp [ScoreManager.recordJudgment, hcase]

/-- After `mapSet m k v`, key `k` holds `v`. -/
theorem mapGet_mapSet_self (m : List (ℕ × ℚ)) (k : ℕ) (v : ℚ) :
    mapGet (mapSet m k v) k = some v := by
  induction m with
  | nil => simp [mapSet, mapGet]
  | cons hd tl ih =>
      by_cases h : hd.1 = k
      · simp [mapSet, mapGet, h]
      · by_cases h2 : tl.any (fun p => p.1 == k)
        · simp only [mapSet, h2, List.any_cons, beq_iff_eq, h, Bool.false_or, if_true,
            List.map_cons, if_neg h] at ih ⊢
          simp only [mapGet, List.find?_cons, beq_iff_eq, h, if_neg h] at ih ⊢
          simpa [h] using ih
        · simp only [mapSet, h2, List.any_cons, beq_iff_eq, h, Bool.false_or,
            if_false] at ih ⊢
          simp only [mapGet] at ih ⊢
          simp only [List.cons_append, List.find?_cons, beq_iff_eq, h]
          simpa [h] using ih

/-- Claim C7, counterexample. The claim says a negative debounce window is
rejected with the prior value retained.  In the code `setDebounceWindow(-5)`
on a debouncer whose window is 30 clamps the window to 0 — the prior value
30 is not retained. -/
theorem setDebounceWindow_negative_counterexample :
    (InputDebouncer.init 30).debounceWindowMs = 30
    ∧ ((InputDebouncer.init 30).setDebounceWindow (-5)).debounceWindowMs = 0
    ∧ (0 : ℚ) ≠ 30 := by
  refine ⟨by decide, ?_, by decide⟩
  show max 0 (-5 : ℚ) = 0
  simp

/-- Claim C7, amended. `setDebounceWindow(ms)` clamps its argument to zero:
for every negative `ms` the stored window becomes 0 (disabling debouncing),
regardless of the prior value; the prior value is not retained. -/
theorem setDebounceWindow_clamps_negative (d : InputDebouncer) (ms : ℚ) (h : ms < 0) :
    (d.setDebounceWindow ms).debounceWindowMs = 0 := by
  simp [InputDebouncer.setDebounceWindow, max_eq_left h.le]

theorem setDebounceWindow_clamps_negative_witness :
    (-5 : ℚ) < 0
    ∧ ((InputDebouncer.init 30).setDebounceWindow (-5)).debounceWindowMs = 0 :=
  ⟨by decide, setDebounceWindow_clamps_negative (InputDebouncer.init 30) (-5) (by decide)⟩

/-- Claim C4. Debouncer law: the first-ever event on a channel is always
accepted; with window 0 every event is accepted; with a positive window an
event is rejected exactly when its timestamp minus the last accepted
timestamp on the same channel is `< window`; a rejection does not update the
stored last-accepted timestamp while an acceptance stores the event's
timestamp; hence, on a channel with no prior accepted event, of two events
separated by less than the window exactly the first is accepted, and two
events separated by at least the window are both accepted. -/
theorem shouldAllowInput_debounce_law (d : InputDebouncer) (c : ℕ) (t t1 t2 : ℚ) :
    (mapGet d.lastTriggerTime c = none → (d.shouldAllowInput c t).1 = true)
    ∧ (d.debounceWindowMs = 0 → (d.shouldAllowInput c t).1 = true)
    ∧ (0 < d.debounceWindowMs →
        ((d.shouldAllowInput c t).1 = false ↔
          ∃ last, mapGet d.lastTriggerTime c = some last ∧ t - last < d.debounceWindowMs))
    ∧ ((d.shouldAllowInput c t).1 = false →
        (d.shouldAllowInput c t).2.lastTriggerTime = d.lastTriggerTime)
    ∧ ((d.shouldAllowInput c t).1 = true →
        mapGet (d.shouldAllowInput c t).2.lastTriggerTime c = some t)
    ∧ (mapGet d.lastTriggerTime c = none → 0 < d.debounceWindowMs →
        (t2 - t1 < d.debounceWindowMs →
          (d.shouldAllowInput c t1).1 = true
          ∧ ((d.shouldAllowInput c t1).2.shouldAllowInput c t2).1 = false)
        ∧ (d.debounceWindowMs ≤ t2 - t1 →
          (d.shouldAllowInput c t1).1 = true
          ∧ ((d.shouldAllowInput c t1).2.shouldAllowInput c t2).1 = true)) := by
  have hfirst : mapGet d.lastTriggerTime c = none → (d.shouldAllowInput c t).1 = true := by
    intro h
    by_cases hw : d.debounceWindowMs ≤ (0 : ℚ) <;>
      simp [InputDebouncer.shouldAllowInput, hw, h]
  have hzero : d.debounceWindowMs = 0 → (d.shouldAllowInput c t).1 = true := by
    intro h
    simp [InputDebouncer.shouldAllowInput, h]
  have hrejiff : 0 < d.debounceWindowMs →
      ((d.shouldAllowInput c t).1 = false ↔
        ∃ last, mapGet d.lastTriggerTime c = some last ∧ t - last < d.debounceWindowMs) := by
    intro hw
    have hw' : ¬ d.debounceWindowMs ≤ (0 : ℚ) := not_le.mpr hw
    rcases hlast : mapGet d.lastTriggerTime c with _ | last
    · simp [InputDebouncer.shouldAllowInput, hw', hlast]
    · by_cases hcl : t - last < d.debounceWindowMs <;>
        simp [InputDebouncer.shouldAllowInput, hw', hlast, hcl]
  have hrejkeep : (d.shouldAllowInput c t).1 = false →
      (d.shouldAllowInput c t).2.lastTriggerTime = d.lastTriggerTime := by
    by_cases hw : d.debounceWindowMs ≤ (0 : ℚ)
    · simp [InputDebouncer.shouldAllowInput, hw]
    · rcases hlast : mapGet d.lastTriggerTime c with _ | last
      · simp [InputDebouncer.shouldAllowInput, hw, hlast]
      · by_cases hcl : t - last < d.debounceWindowMs <;>
          simp [InputDebouncer.shouldAllowInput, hw, hlast, hcl]
  have haccstore : (d.shouldAllowInput c t).1 = true →
      mapGet (d.shouldAllowInput c t).2.lastTriggerTime c = some t := by
    by_cases hw : d.debounceWindowMs ≤ (0 : ℚ)
    · simp [InputDebouncer.shouldAllowInput, hw, mapGet_mapSet_self]
    · rcases hlast : mapGet d.lastTriggerTime c with _ | last
      · simp [InputDebouncer.shouldAllowInput, hw, hlast, mapGet_mapSet_self]
      · by_cases hcl : t - last < d.debounceWindowMs <;>
          simp [InputDebouncer.shouldAllowInput, hw, hlast, hcl, mapGet_mapSet_self]
  refine ⟨hfirst, hzero, hrejiff, hrejkeep, haccstore, ?_⟩
  intro hnone hw
  have hw' : ¬ d.debounceWindowMs ≤ (0 : ℚ) := not_le.mpr hw
  have hD : (d.shouldAllowInput c t1).2
      = { d with totalInputs := d.totalInputs + 1,
                 lastTriggerTime := mapSet d.lastTriggerTime c t1 } := by
    simp [InputDebouncer.shouldAllowInput, hw', hnone]
  have hfirstAccept : (d.shouldAllowInput c t1).1 = true := by
    simp [InputDebouncer.shouldAllowInput, hw', hnone]
  constructor
  · intro hsep
    refine ⟨hfirstAccept, ?_⟩
    rw [hD]
    simp [InputDebouncer.shouldAllowInput, hw', mapGet_mapSet_self, hsep]
  · intro hsep
    refine ⟨hfirstAccept, ?_⟩
    rw [hD]
    simp [InputDebouncer.shouldAllowInput, hw', mapGet_mapSet_self, not_lt.mpr hsep]

theorem shouldAllowInput_debounce_law_witness :
    mapGet (InputDebouncer.init 30).lastTriggerTime 36 = none
    ∧ (0 : ℚ) < (InputDebouncer.init 30).debounceWindowMs
    ∧ ((InputDebouncer.init 30).shouldAllowInput 36 0).1 = true
    ∧ (((InputDebouncer.init 30).shouldAllowInput 36 0).2.shouldAllowInput 36 20).1 = false
    ∧ (((InputDebouncer.init 30).shouldAllowInput 36 0).2.shouldAllowInput 36 35).1 = true := by
  have h20 := (shouldAllowInput_debounce_law (InputDebouncer.init 30) 36 0 0 20).2.2.2.2.2
    (by decide) (by decide)
  have h35 := (shouldAllowInput_debounce_law (InputDebouncer.init 30) 36 0 0 35).2.2.2.2.2
    (by decide) (by decide)
  exact ⟨by decide, by decide, (h20.1 (by decide)).1, (h20.1 (by decide)).2,
    (h35.2 (by decide)).2⟩

/-- Claim C8, counterexample. The claim says recording a hit for a note that
is not in Active fails loudly.  The code has no error path: on the freshly
constructed two-note session (Active empty), `recordHit` on the note with
id 1 — which sits in Upcoming — silently accepts the hit, appending it to
the Hit bucket while it also remains in Upcoming, corrupting the one-bucket
invariant. -/
theorem recordHit_nonactive_counterexample :
    (GameState.init patternTwoNotes).activeNotes = []
    ∧ ((GameState.init patternTwoNotes).recordHit (mkNote 1 5800 38)
        (judgeHit 5800 5800 true)).hitNotes.map Note.id = [1]
    ∧ ((GameState.init patternTwoNotes).recordHit (mkNote 1 5800 38)
        (judgeHit 5800 5800 true)).upcomingNotes.map Note.id = [0, 1] := by
  refine ⟨by decide, by decide, by decide⟩

/-- Claim C8, amended. `recordHit` performs no bucket-membership validation
and has no error path: called on a note absent from Active it silently
accepts the hit — the judged/hit copy of the note is appended to the Hit
bucket — while Upcoming, Active and Missed are left exactly as they were,
so a note that sits in another bucket ends up in two buckets at once. -/
theorem recordHit_nonactive_silently_accepts (s : GameState) (n : Note) (j : Judgment)
    (h : n ∉ s.activeNotes) :
    (s.recordHit n j).activeNotes = s.activeNotes
    ∧ (s.recordHit n j).upcomingNotes = s.upcomingNotes
    ∧ (s.recordHit n j).missedNotes = s.missedNotes
    ∧ (s.recordHit n j).hitNotes.map Note.id = s.hitNotes.map Note.id ++ [n.id]
    ∧ ∀ m ∈ (s.recordHit n j).hitNotes,
        m ∈ s.hitNotes ∨ (m.id = n.id ∧ m.judged = true ∧ m.hit = true) := by
  refine ⟨?_, rfl, rfl, by simp [GameState.recordHit], ?_⟩
  · simp [GameState.recordHit, List.erase_of_not_mem h]
  · intro m hm
    simp only [GameState.recordHit, List.mem_append, List.mem_singleton] at hm
    rcases hm with hm | hm
    · exact Or.inl hm
    · subst hm
      exact Or.inr ⟨rfl, rfl, rfl⟩

theorem recordHit_nonactive_silently_accepts_witness :
    mkNote 1 5800 38 ∉ (GameState.init patternTwoNotes).activeNotes
    ∧ ((GameState.init patternTwoNotes).recordHit (mkNote 1 5800 38)
        (judgeHit 5800 5800 true)).hitNotes.map Note.id
      = (GameState.init patternTwoNotes).hitNotes.map Note.id ++ [(mkNote 1 5800 38).id] :=
  ⟨by decide,
   (recordHit_nonactive_silently_accepts (GameState.init patternTwoNotes)
      (mkNote 1 5800 38) (judgeHit 5800 5800 true) (by decide)).2.2.2.1⟩

/-- Claim C6, counterexample. The claim quantifies over every Playing state.
`playingAtZeroState` is reachable (start at wall time 0, tick at wall time
2000) and is Playing with virtual time exactly 0; pausing and resuming it
does not restore virtual time 0 — `resume` re-enters `start`'s lead-in
branch and restarts the countdown at −2000 ms. -/
theorem pause_resume_zero_counterexample :
    playingAtZeroState.isPlaying = true
    ∧ playingAtZeroState.currentTime = 0
    ∧ (GameState.resume 5000 (GameState.pause playingAtZeroState)).currentTime = -2000
    ∧ ((-2000 : ℚ) ≠ 0) := by
  refine ⟨by decide, by decide, by decide, by decide⟩

/-- Claim C6, amended. Pause/resume round-trip for every Playing state whose
virtual time is nonzero: after `pause()` and a later `resume()` at an
arbitrary wall time (i.e. after an arbitrary pause duration) the virtual
time equals the virtual time before the pause and the engine is Playing
again — resume re-anchors the wall reference exactly as `start()` does,
excising the paused duration.  (At virtual time exactly 0 the `start`
lead-in branch restarts the countdown instead.) -/
theorem pause_resume_roundtrip (s : GameState) (now : ℚ)
    (hp : s.isPlaying = true) (h0 : s.currentTime ≠ 0) :
    (GameState.resume now (GameState.pause s)).currentTime = s.currentTime
    ∧ (GameState.resume now (GameState.pause s)).isPlaying = true := by
  by_cases hpause : s.isPaused
  · simp [GameState.pause, GameState.resume, GameState.start, hp, hpause, h0]
  · simp [GameState.pause, GameState.resume, GameState.start, hp, hpause, h0]

theorem pause_resume_roundtrip_witness :
    playingAt500State.isPlaying = true
    ∧ playingAt500State.currentTime = 500
    ∧ (GameState.resume 10000 (GameState.pause playingAt500State)).currentTime
        = playingAt500State.currentTime :=
  ⟨by decide, by decide,
   (pause_resume_roundtrip playingAt500State 10000 (by decide) (by decide)).1⟩

/-- Claim C9, counterexample. The claim covers every per-tick update call.
In sequence mode it fails: in `sequenceModeState`, two consecutive
`update` calls at the same wall time 0 recompute the same virtual time
(2850 ms, held just before the gated note), yet the second call still moves
the note with id 1 from Upcoming to Active — a bucket transition with zero
elapsed wall time, caused by the first call having advanced the frozen
virtual time and thereby the lookahead horizon. -/
theorem tick_idempotence_counterexample :
    (GameState.update 0 sequenceModeState).currentTime = 2850
    ∧ (GameState.update 0 (GameState.update 0 sequenceModeState)).currentTime = 2850
    ∧ (GameState.update 0 sequenceModeState).upcomingNotes.map Note.id = [1]
    ∧ (GameState.update 0 (GameState.update 0 sequenceModeState)).upcomingNotes.map Note.id
        = []
    ∧ (GameState.update 0 (GameState.update 0 sequenceModeState)).activeNotes.map Note.id
        = [0, 1] := by
  refine ⟨by decide, by decide, by decide, by decide, by decide⟩

/-- Filtering with a predicate and then with its negation yields nothing. -/
theorem filter_neg_filter_eq_nil (l : List α) (p : α → Bool) :
    (l.filter fun a => !p a).filter p = [] := by
  induction l with
  | nil => rfl
  | cons hd tl ih =>
      by_cases h : p hd <;> simp [List.filter_cons, h, ih]

/-- A list none of whose elements satisfy `p` is fixed by filtering with
the negation of `p`. -/
theorem filter_neg_eq_self_of_filter_eq_nil (l : List α) (p : α → Bool)
    (h : l.filter p = []) : (l.filter fun a => !p a) = l := by
  rw [List.filter_eq_self]
  intro a ha
  have := List.filter_eq_nil_iff.mp h a ha
  simp_all

/-- A state whose countdown display is already current is fixed by
`countdownStep`. -/
theorem countdownStep_fixed (t : GameState)
    (hcd : t.isCountingDown = true →
      t.currentTime < 0 ∧
        t.countdownValue = Rat.ceil (-t.currentTime / (60 / t.pattern.bpm * 1000))) :
    t.countdownStep = (t, []) := by
  cases hc : t.isCountingDown
  · simp [GameState.countdownStep, hc]
  · obtain ⟨hneg, hval⟩ := hcd hc
    simp [GameState.countdownStep, hc, hneg, ← hval]

/-- A state with no promotable upcoming note is fixed by
`updateActiveNotes`. -/
theorem updateActiveNotes_fixed (t : GameState)
    (hup : t.upcomingNotes.filter
      (fun n => decide (n.time ≤ t.currentTime + LOOKAHEAD_TIME)) = []) :
    t.updateActiveNotes = t := by
  have hkeep := filter_neg_eq_self_of_filter_eq_nil _ _ hup
  simp only [GameState.updateActiveNotes, hup, hkeep, List.append_nil]

/-- A state with no expirable active note is fixed by `checkMissedNotes`. -/
theorem checkMissedNotes_fixed (t : GameState)
    (hmiss : t.activeNotes.filter
      (fun n => decide (n.time < t.currentTime - TIMING_WINDOWS_MISS) && !n.judged) = []) :
    t.checkMissedNotes = (t, []) := by
  have hkeep := filter_neg_eq_self_of_filter_eq_nil _ _ hmiss
  simp only [GameState.checkMissedNotes, hmiss, hkeep, List.map_nil, List.append_nil]

/-- A state that is already stopped whenever its pending buckets are empty
is fixed by `checkPatternComplete`. -/
theorem checkPatternComplete_fixed (t : GameState)
    (hdone : t.upcomingNotes.isEmpty = true → t.activeNotes.isEmpty = true →
      t.isPlaying = false) :
    t.checkPatternComplete = (t, []) := by
  by_cases h1 : t.upcomingNotes.isEmpty
  · by_cases h2 : t.activeNotes.isEmpty
    · simp [GameState.checkPatternComplete, h1, h2, hdone h1 h2]
    · simp [GameState.checkPatternComplete, h1, h2]
  · simp [GameState.checkPatternComplete, h1]

/-- A tick applied to a state that is a fixed point of all four update
phases changes nothing and emits only the render notification. -/
theorem updateN_fixed (now : ℚ) (t : GameState)
    (hseq : t.sequenceMode = false)
    (hct : now - t.startTime.getD 0 = t.currentTime)
    (hcd : t.isCountingDown = true →
      t.currentTime < 0 ∧
        t.countdownValue = Rat.ceil (-t.currentTime / (60 / t.pattern.bpm * 1000)))
    (hup : t.upcomingNotes.filter
      (fun n => decide (n.time ≤ t.currentTime + LOOKAHEAD_TIME)) = [])
    (hmiss : t.currentTime ≥ 0 → t.activeNotes.filter
      (fun n => decide (n.time < t.currentTime - TIMING_WINDOWS_MISS) && !n.judged) = [])
    (hdone : t.currentTime ≥ 0 → t.upcomingNotes.isEmpty = true →
      t.activeNotes.isEmpty = true → t.isPlaying = false) :
    GameState.updateN now t = (t, [Notif.onUpdate]) := by
  have hA : ({ t with currentTime := now - t.startTime.getD 0 } : GameState) = t := by
    rw [hct]
  simp only [GameState.updateN, hA]
  simp only [hseq, Bool.false_eq_true, if_false,
    countdownStep_fixed t hcd, updateActiveNotes_fixed t hup]
  by_cases h0 : t.currentTime ≥ 0
  · simp only [h0, if_true, checkMissedNotes_fixed t (hmiss h0),
      checkPatternComplete_fixed t (hdone h0), List.append_nil, List.nil_append]
  · simp [h0]

/-- What `countdownStep` preserves, and the display invariant its output
satisfies. -/
theorem countdownStep_spec (u : GameState) :
    (u.countdownStep).1.pattern = u.pattern
    ∧ (u.countdownStep).1.currentTime = u.currentTime
    ∧ (u.countdownStep).1.startTime = u.startTime
    ∧ (u.countdownStep).1.isPlaying = u.isPlaying
    ∧ (u.countdownStep).1.sequenceMode = u.sequenceMode
    ∧ (u.countdownStep).1.upcomingNotes = u.upcomingNotes
    ∧ (u.countdownStep).1.activeNotes = u.activeNotes
    ∧ (u.countdownStep).1.hitNotes = u.hitNotes
    ∧ (u.countdownStep).1.missedNotes = u.missedNotes
    ∧ ((u.countdownStep).1.isCountingDown = true →
        u.currentTime < 0 ∧
          (u.countdownStep).1.countdownValue =
            Rat.ceil (-u.currentTime / (60 / u.pattern.bpm * 1000))) := by
  by_cases h1 : u.isCountingDown
  · by_cases h2 : u.currentTime < 0
    · by_cases h3 : Rat.ceil (-u.currentTime / (60 / u.pattern.bpm * 1000)) ≠ u.countdownValue
      · simp [GameState.countdownStep, h1, h2, h3]
      · simp [GameState.countdownStep, h1, h2, h3]
        exact (not_not.mp h3).symm
    · simp [GameState.countdownStep, h1, h2]
  · simp [GameState.countdownStep, h1]

/-- What `updateActiveNotes` preserves, and that its output has no further
promotable upcoming note at the same virtual time. -/
theorem updateActiveNotes_spec (u : GameState) :
    u.updateActiveNotes.pattern = u.pattern
    ∧ u.updateActiveNotes.currentTime = u.currentTime
    ∧ u.updateActiveNotes.startTime = u.startTime
    ∧ u.updateActiveNotes.isPlaying = u.isPlaying
    ∧ u.updateActiveNotes.sequenceMode = u.sequenceMode
    ∧ u.updateActiveNotes.isCountingDown = u.isCountingDown
    ∧ u.updateActiveNotes.countdownValue = u.countdownValue
    ∧ u.updateActiveNotes.hitNotes = u.hitNotes
    ∧ u.updateActiveNotes.missedNotes = u.missedNotes
    ∧ u.updateActiveNotes.upcomingNotes.filter
        (fun n => decide (n.time ≤ u.currentTime + LOOKAHEAD_TIME)) = [] := by
  refine ⟨rfl, rfl, rfl, rfl, rfl, rfl, rfl, rfl, rfl, ?_⟩
  simp [GameState.updateActiveNotes, filter_neg_filter_eq_nil]

/-- What `checkMissedNotes` preserves, and that its output has no further
expirable active note at the same virtual time. -/
theorem checkMissedNotes_spec (u : GameState) :
    (u.checkMissedNotes).1.pattern = u.pattern
    ∧ (u.checkMissedNotes).1.currentTime = u.currentTime
    ∧ (u.checkMissedNotes).1.startTime = u.startTime
    ∧ (u.checkMissedNotes).1.isPlaying = u.isPlaying
    ∧ (u.checkMissedNotes).1.sequenceMode = u.sequenceMode
    ∧ (u.checkMissedNotes).1.isCountingDown = u.isCountingDown
    ∧ (u.checkMissedNotes).1.countdownValue = u.countdownValue
    ∧ (u.checkMissedNotes).1.upcomingNotes = u.upcomingNotes
    ∧ (u.checkMissedNotes).1.hitNotes = u.hitNotes
    ∧ (u.checkMissedNotes).1.activeNotes.filter
        (fun n => decide (n.time < u.currentTime - TIMING_WINDOWS_MISS) && !n.judged)
        = [] := by
  refine ⟨rfl, rfl, rfl, rfl, rfl, rfl, rfl, rfl, rfl, ?_⟩
  simp only [GameState.checkMissedNotes]
  exact filter_neg_filter_eq_nil _ _

/-- What `checkPatternComplete` preserves, and that its output is stopped
whenever its pending buckets are empty. -/
theorem checkPatternComplete_spec (u : GameState) :
    (u.checkPatternComplete).1.pattern = u.pattern
    ∧ (u.checkPatternComplete).1.currentTime = u.currentTime
    ∧ (u.checkPatternComplete).1.startTime = u.startTime
    ∧ (u.checkPatternComplete).1.sequenceMode = u.sequenceMode
    ∧ (u.checkPatternComplete).1.isCountingDown = u.isCountingDown
    ∧ (u.checkPatternComplete).1.countdownValue = u.countdownValue
    ∧ (u.checkPatternComplete).1.upcomingNotes = u.upcomingNotes
    ∧ (u.checkPatternComplete).1.activeNotes = u.activeNotes
    ∧ (u.checkPatternComplete).1.hitNotes = u.hitNotes
    ∧ (u.checkPatternComplete).1.missedNotes = u.missedNotes
    ∧ ((u.checkPatternComplete).1.upcomingNotes.isEmpty = true →
        (u.checkPatternComplete).1.activeNotes.isEmpty = true →
        (u.checkPatternComplete).1.isPlaying = false) := by
  by_cases h1 : u.upcomingNotes.isEmpty <;>
    by_cases h2 : u.activeNotes.isEmpty <;>
      by_cases h3 : u.isPlaying <;>
        simp [GameState.checkPatternComplete, GameState.stop, h1, h2, h3]

/-- The per-tick update in normal mode, written as the composition of its
four phases. -/
theorem update_body (now : ℚ) (s : GameState) (hseq : s.sequenceMode = false) :
    GameState.update now s
      = (let u : GameState := { s with currentTime := now - s.startTime.getD 0 }
         let a := u.countdownStep.1.updateActiveNotes
         if a.currentTime ≥ 0 then ((a.checkMissedNotes).1.checkPatternComplete).1 else a) := by
  simp only [GameState.update, GameState.updateN]
  rw [if_neg (by simp [hseq])]
  by_cases h : (({ s with currentTime := now - s.startTime.getD 0 } :
      GameState).countdownStep.1.updateActiveNotes).currentTime ≥ 0 <;>
    simp [h]

/-- One tick leaves the engine in a state that is a fixed point of every
update phase at the same wall time (normal mode). -/
theorem update_stable (now : ℚ) (s : GameState) (hseq : s.sequenceMode = false) :
    (GameState.update now s).sequenceMode = false
    ∧ now - (GameState.update now s).startTime.getD 0 = (GameState.update now s).currentTime
    ∧ ((GameState.update now s).isCountingDown = true →
        (GameState.update now s).currentTime < 0 ∧
          (GameState.update now s).countdownValue =
            Rat.ceil (-(GameState.update now s).currentTime /
              (60 / (GameState.update now s).pattern.bpm * 1000)))
    ∧ (GameState.update now s).upcomingNotes.filter
        (fun n => decide (n.time ≤ (GameState.update now s).currentTime + LOOKAHEAD_TIME))
        = []
    ∧ ((GameState.update now s).currentTime ≥ 0 →
        (GameState.update now s).activeNotes.filter
          (fun n => decide (n.time < (GameState.update now s).currentTime - TIMING_WINDOWS_MISS)
            && !n.judged) = [])
    ∧ ((GameState.update now s).currentTime ≥ 0 →
        (GameState.update now s).upcomingNotes.isEmpty = true →
        (GameState.update now s).activeNotes.isEmpty = true →
        (GameState.update now s).isPlaying = false) := by
  rw [update_body now s hseq]
  obtain ⟨c1, c2, c3, c4, c5, c6, c7, c8, c9, c10⟩ :=
    countdownStep_spec ({ s with currentTime := now - s.startTime.getD 0 } : GameState)
  obtain ⟨a1, a2, a3, a4, a5, a6, a7, a8, a9, a10⟩ :=
    updateActiveNotes_spec (({ s with currentTime := now - s.startTime.getD 0 } :
      GameState).countdownStep.1)
  by_cases h0 : (({ s with currentTime := now - s.startTime.getD 0 } :
      GameState).countdownStep.1.updateActiveNotes).currentTime ≥ 0
  · obtain ⟨m1, m2, m3, m4, m5, m6, m7, m8, m9, m10⟩ :=
      checkMissedNotes_spec (({ s with currentTime := now - s.startTime.getD 0 } :
        GameState).countdownStep.1.updateActiveNotes)
    obtain ⟨p1, p2, p3, p4, p5, p6, p7, p8, p9, p10, p11⟩ :=
      checkPatternComplete_spec ((({ s with currentTime := now - s.startTime.getD 0 } :
        GameState).countdownStep.1.updateActiveNotes).checkMissedNotes).1
    simp only [h0, if_true]
    refine ⟨?_, ?_, ?_, ?_, ?_, ?_⟩
    · rw [p4, m5, a5, c5]
      exact hseq
    · simp [p2, m2, a2, c2, p3, m3, a3, c3]
    · rw [p5, m6, a6]
      intro hc
      obtain ⟨hneg, hval⟩ := c10 hc
      refine ⟨?_, ?_⟩
      · rw [p2, m2, a2, c2]
        exact hneg
      · rw [p6, m7, a7, p2, m2, a2, c2, p1, m1, a1, c1]
        exact hval
    · rw [p7, m8, p2, m2, a2]
      exact a10
    · intro _
      rw [p8, p2, m2]
      exact m10
    · intro _
      exact p11
  · simp only [h0, if_false]
    refine ⟨?_, ?_, ?_, ?_, ?_, ?_⟩
    · rw [a5, c5]
      exact hseq
    · simp [a2, c2, a3, c3]
    · rw [a6]
      intro hc
      obtain ⟨hneg, hval⟩ := c10 hc
      refine ⟨?_, ?_⟩
      · rw [a2, c2]
        exact hneg
      · rw [a7, a2, c2, a1, c1]
        exact hval
    · rw [a2]
      exact a10
    · exact fun hge => hge.elim
    · exact fun hge => hge.elim

/-- Claim C9, amended. In normal (non-sequence) mode the per-tick update is
idempotent at fixed wall time: a second `update` at the same wall time —
hence with the same recomputed virtual time — returns the state completely
unchanged (in particular no Upcoming/Active/Hit/Missed transition) and
emits only the render notification: no repeated countdown value, no second
miss notification, no second completion notification.  (In sequence mode a
second zero-elapsed tick can still activate notes; see the counterexample.) -/
theorem tick_idempotent (s : GameState) (now : ℚ) (hseq : s.sequenceMode = false) :
    GameState.updateN now (GameState.update now s)
      = (GameState.update now s, [Notif.onUpdate]) := by
  obtain ⟨h1, h2, h3, h4, h5, h6⟩ := update_stable now s hseq
  exact updateN_fixed now _ h1 h2 h3 h4 h5 h6

theorem tick_idempotent_witness :
    (GameState.init patternSingleNote).sequenceMode = false
    ∧ GameState.updateN 0 (GameState.update 0 (GameState.init patternSingleNote))
        = (GameState.update 0 (GameState.init patternSingleNote), [Notif.onUpdate]) :=
  ⟨by decide, tick_idempotent (GameState.init patternSingleNote) 0 (by decide)⟩

/-- Claim C5, counterexample. The claim says the synthetic record of a clean
group carries the dominant quality tier by relative count.  In the
five-loop session `fiveLoopState` the single group at loop position 500 on
channel 36 was judged Good 2× and Ok 3× — Ok is dominant — yet the code's
cascade asks first whether Good reaches a third of the clean hits, so the
averaged record says Good. -/
theorem averaging_dominant_tier_counterexample :
    (fiveLoopState.getAveragedNotesForVisualization 2000 5).map
        (fun v => v.accuracy.map AvgAccuracy.judgment) = [some Tier.GOOD]
    ∧ (countGroup fiveLoopState.getAllNotesWithAccuracy).good = 2
    ∧ (countGroup fiveLoopState.getAllNotesWithAccuracy).ok = 3
    ∧ specDominantQualityTier (countGroup fiveLoopState.getAllNotesWithAccuracy) = Tier.OK
    ∧ Tier.GOOD ≠ Tier.OK := by
  refine ⟨by decide, by decide, by decide, by decide, by decide⟩

/-- Membership is invariant under stable insertion. -/
theorem mem_insertByKey (key : α → ℚ) (x a : α) (l : List α) :
    a ∈ insertByKey key x l ↔ a = x ∨ a ∈ l := by
  induction l with
  | nil => simp [insertByKey]
  | cons hd tl ih =>
      by_cases h : key x < key hd
      · simp [insertByKey, h]
      · simp [insertByKey, h, ih]
        tauto

/-- Membership is invariant under the stable sort. -/
theorem mem_sortByKey (key : α → ℚ) (a : α) (l : List α) :
    a ∈ sortByKey key l ↔ a ∈ l := by
  suffices h : ∀ acc : List α,
      a ∈ l.foldl (fun acc x => insertByKey key x acc) acc ↔ a ∈ acc ∨ a ∈ l by
    simpa [sortByKey] using h []
  induction l with
  | nil => simp
  | cons hd tl ih =>
      intro acc
      simp only [List.foldl_cons, ih, mem_insertByKey, List.mem_cons]
      tauto

/-- `classify` touches only the outcome counters. -/
theorem classify_timeDiff_fields (c : GroupCounts) (a : Accuracy) :
    (c.classify a).totalTimeDiff = c.totalTimeDiff
    ∧ (c.classify a).timeDiffCount = c.timeDiffCount := by
  by_cases h1 : a.missed
  · simp [GroupCounts.classify, h1]
  · by_cases h2 : a.wrongPad
    · simp [GroupCounts.classify, h1, h2]
    · cases hj : a.judgment <;> simp [GroupCounts.classify, h1, h2, hj]

/-- The counting loop accumulates exactly the sum and the number of the
group's non-null time offsets. -/
theorem foldl_step_timeDiff (notes : List Note) (c : GroupCounts) :
    (notes.foldl GroupCounts.step c).totalTimeDiff
        = c.totalTimeDiff + (groupTimeDiffs notes).sum
    ∧ (notes.foldl GroupCounts.step c).timeDiffCount
        = c.timeDiffCount + (groupTimeDiffs notes).length := by
  induction notes generalizing c with
  | nil => simp [groupTimeDiffs]
  | cons n tl ih =>
      rcases hacc : n.accuracy with _ | a
      · obtain ⟨ih1, ih2⟩ := ih { c with miss := c.miss + 1 }
        have h1 : GroupCounts.step c n = { c with miss := c.miss + 1 } := by
          simp [GroupCounts.step, hacc]
        have hg : groupTimeDiffs (n :: tl) = groupTimeDiffs tl := by
          simp [groupTimeDiffs, hacc]
        constructor
        · rw [List.foldl_cons, h1, ih1, hg]
        · rw [List.foldl_cons, h1, ih2, hg]
      · rcases htd : a.timeDiff with _ | d
        · obtain ⟨ih1, ih2⟩ := ih (c.classify a)
          have h1 : GroupCounts.step c n = c.classify a := by
            simp [GroupCounts.step, hacc, htd]
          have hg : groupTimeDiffs (n :: tl) = groupTimeDiffs tl := by
            simp [groupTimeDiffs, hacc, htd]
          constructor
          · rw [List.foldl_cons, h1, ih1, hg, (classify_timeDiff_fields c a).1]
          · rw [List.foldl_cons, h1, ih2, hg, (classify_timeDiff_fields c a).2]
        · obtain ⟨ih1, ih2⟩ := ih (GroupCounts.step c n)
          have h1t : (GroupCounts.step c n).totalTimeDiff = c.totalTimeDiff + d := by
            simp [GroupCounts.step, hacc, htd, (classify_timeDiff_fields c a).1]
          have h1c : (GroupCounts.step c n).timeDiffCount = c.timeDiffCount + 1 := by
            simp [GroupCounts.step, hacc, htd, (classify_timeDiff_fields c a).2]
          have hg : groupTimeDiffs (n :: tl) = d :: groupTimeDiffs tl := by
            simp [groupTimeDiffs, hacc, htd]
          constructor
          · rw [List.foldl_cons, ih1, h1t, hg, List.sum_cons]
            ring
          · rw [List.foldl_cons, ih2, h1c, hg, List.length_cons]
            omega

/-- "At least half", read off the code's rational comparison. -/
theorem nat_half_le (a b : ℕ) : ((a : ℚ) ≥ (b : ℚ) / 2) ↔ 2 * a ≥ b := by
  rw [ge_iff_le, div_le_iff (by norm_num : (0 : ℚ) < 2)]
  constructor <;> intro h
  · exact_mod_cast (by linarith : (b : ℚ) ≤ 2 * a)
  · have : (b : ℚ) ≤ 2 * a := by exact_mod_cast h
    linarith

/-- Strict version of `nat_half_le`. -/
theorem nat_half_lt (a b : ℕ) : ¬ ((a : ℚ) ≥ (b : ℚ) / 2) ↔ 2 * a < b := by
  rw [nat_half_le]
  omega

/-- "At least half of the clean hits", with the code's `Int` hit count. -/
theorem int_frac_le (a : ℕ) (h : ℤ) (q : ℚ) (hq : 0 < q) :
    ((a : ℚ) ≥ (h : ℚ) / q) ↔ (h : ℚ) ≤ q * a := by
  rw [ge_iff_le, div_le_iff hq]
  constructor <;> intro hle <;> linarith

/-- "At least half of the clean hits", read off the code's rational
comparison against the `Int` hit count. -/
theorem int_half_le (a : ℕ) (h : ℤ) : ((a : ℚ) ≥ (h : ℚ) / 2) ↔ 2 * (a : ℤ) ≥ h := by
  rw [int_frac_le a h 2 (by norm_num)]
  constructor <;> intro hle
  · exact_mod_cast (by linarith : (h : ℚ) ≤ 2 * (a : ℚ))
  · have : (h : ℚ) ≤ 2 * (a : ℚ) := by exact_mod_cast hle
    linarith

/-- "At least a third of the clean hits". -/
theorem int_third_le (a : ℕ) (h : ℤ) : ((a : ℚ) ≥ (h : ℚ) / 3) ↔ 3 * (a : ℤ) ≥ h := by
  rw [int_frac_le a h 3 (by norm_num)]
  constructor <;> intro hle
  · exact_mod_cast (by linarith : (h : ℚ) ≤ 3 * (a : ℚ))
  · have : (h : ℚ) ≤ 3 * (a : ℚ) := by exact_mod_cast hle
    linarith

/-- Claim C5, amended. For a multi-loop session (`loopCount > 1`) every
record produced by `getAveragedNotesForVisualization` is the collapse of
one note group, and that collapse follows a fixed cascade rather than a
dominant-tier vote: Miss when at least half the group is missed, else
WrongChannel when at least half is wrong-channel, else Perfect when at
least half of the clean hits are Perfect, else Good when at least a third
are Good, else Ok when at least a third are Ok, else Early/Late by strict
majority between the two, else Ok; the synthetic `timeDiff` is the
arithmetic mean of the group's non-null per-note offsets. -/
theorem averaging_majority_cascade (s : GameState) (dur : ℚ) (k : ℕ) (hk : 1 < k) :
    ∀ v ∈ s.getAveragedNotesForVisualization dur k,
      ∃ g ∈ buildGroups dur s.getAllNotesWithAccuracy,
        v = collapseGroup g
        ∧ (2 * (countGroup g.2).miss ≥ g.2.length →
            v.accuracy.map AvgAccuracy.judgment = some Tier.MISS)
        ∧ (2 * (countGroup g.2).miss < g.2.length →
            2 * (countGroup g.2).wrongPad ≥ g.2.length →
            v.accuracy.map AvgAccuracy.judgment = some Tier.WRONG_NOTE)
        ∧ (2 * (countGroup g.2).miss < g.2.length →
            2 * (countGroup g.2).wrongPad < g.2.length →
            v.accuracy.map AvgAccuracy.judgment = some
              (if 2 * ((countGroup g.2).perfect : ℤ)
                  ≥ (g.2.length : ℤ) - (countGroup g.2).miss - (countGroup g.2).wrongPad
               then Tier.PERFECT
               else if 3 * ((countGroup g.2).good : ℤ)
                  ≥ (g.2.length : ℤ) - (countGroup g.2).miss - (countGroup g.2).wrongPad
               then Tier.GOOD
               else if 3 * ((countGroup g.2).ok : ℤ)
                  ≥ (g.2.length : ℤ) - (countGroup g.2).miss - (countGroup g.2).wrongPad
               then Tier.OK
               else if (countGroup g.2).early > (countGroup g.2).late then Tier.EARLY
               else if (countGroup g.2).late > (countGroup g.2).early then Tier.LATE
               else Tier.OK))
        ∧ (0 < (groupTimeDiffs g.2).length →
            v.accuracy.map AvgAccuracy.timeDiff
              = some (some ((groupTimeDiffs g.2).sum / ((groupTimeDiffs g.2).length : ℚ)))) := by
  intro v hv
  have hk' : ¬ k ≤ 1 := not_le.mpr hk
  simp only [GameState.getAveragedNotesForVisualization, hk', if_false] at hv
  rw [mem_sortByKey] at hv
  obtain ⟨g, hg, rfl⟩ := List.mem_map.mp hv
  have hj : (collapseGroup g).accuracy.map AvgAccuracy.judgment
      = some (avgJudgment (countGroup g.2) g.2.length) := by
    simp [collapseGroup]
  refine ⟨g, hg, rfl, ?_, ?_, ?_, ?_⟩
  · intro h
    rw [hj]
    simp only [avgJudgment]
    rw [if_pos ((nat_half_le _ _).mpr h)]
  · intro h1 h2
    rw [hj]
    simp only [avgJudgment]
    rw [if_neg ((nat_half_lt _ _).mpr h1), if_pos ((nat_half_le _ _).mpr h2)]
  · intro h1 h2
    rw [hj]
    simp only [avgJudgment]
    rw [if_neg ((nat_half_lt _ _).mpr h1), if_neg ((nat_half_lt _ _).mpr h2)]
    simp only [int_half_le, int_third_le]
  · intro h
    have ht := foldl_step_timeDiff g.2 GroupCounts.zero
    have htd : (countGroup g.2).totalTimeDiff = (groupTimeDiffs g.2).sum := by
      simpa [countGroup, GroupCounts.zero] using ht.1
    have htc : (countGroup g.2).timeDiffCount = (groupTimeDiffs g.2).length := by
      simpa [countGroup, GroupCounts.zero] using ht.2
    simp only [collapseGroup, Option.map_some]
    rw [htd, htc, if_pos h]
    rfl

theorem averaging_majority_cascade_witness :
    ∃ g ∈ buildGroups 2000 fiveLoopState.getAllNotesWithAccuracy,
      ({ time := 500, midiNote := 36,
         accuracy := some
           { timeDiff := some 96, rushing := false, dragging := false,
             wrongPad := false, missed := false, judgment := Tier.GOOD,
             loopResults := [Tier.GOOD, Tier.GOOD, Tier.OK, Tier.OK, Tier.OK] } } : VisNote)
          = collapseGroup g
      ∧ (2 * (countGroup g.2).miss ≥ g.2.length →
          Option.map AvgAccuracy.judgment
            ({ time := 500, midiNote := 36,
               accuracy := some
                 { timeDiff := some 96, rushing := false, dragging := false,
                   wrongPad := false, missed := false, judgment := Tier.GOOD,
                   loopResults := [Tier.GOOD, Tier.GOOD, Tier.OK, Tier.OK, Tier.OK] } }
              : VisNote).accuracy = some Tier.MISS)
      ∧ (2 * (countGroup g.2).miss < g.2.length →
          2 * (countGroup g.2).wrongPad ≥ g.2.length →
          Option.map AvgAccuracy.judgment
            ({ time := 500, midiNote := 36,
               accuracy := some
                 { timeDiff := some 96, rushing := false, dragging := false,
                   wrongPad := false, missed := false, judgment := Tier.GOOD,
                   loopResults := [Tier.GOOD, Tier.GOOD, Tier.OK, Tier.OK, Tier.OK] } }
              : VisNote).accuracy = some Tier.WRONG_NOTE)
      ∧ (2 * (countGroup g.2).miss < g.2.length →
          2 * (countGroup g.2).wrongPad < g.2.length →
          Option.map AvgAccuracy.judgment
            ({ time := 500, midiNote := 36,
               accuracy := some
                 { timeDiff := some 96, rushing := false, dragging := false,
                   wrongPad := false, missed := false, judgment := Tier.GOOD,
                   loopResults := [Tier.GOOD, Tier.GOOD, Tier.OK, Tier.OK, Tier.OK] } }
              : VisNote).accuracy = some
            (if 2 * ((countGroup g.2).perfect : ℤ)
                ≥ (g.2.length : ℤ) - (countGroup g.2).miss - (countGroup g.2).wrongPad
             then Tier.PERFECT
             else if 3 * ((countGroup g.2).good : ℤ)
                ≥ (g.2.length : ℤ) - (countGroup g.2).miss - (countGroup g.2).wrongPad
             then Tier.GOOD
             else if 3 * ((countGroup g.2).ok : ℤ)
                ≥ (g.2.length : ℤ) - (countGroup g.2).miss - (countGroup g.2).wrongPad
             then Tier.OK
             else if (countGroup g.2).early > (countGroup g.2).late then Tier.EARLY
             else if (countGroup g.2).late > (countGroup g.2).early then Tier.LATE
             else Tier.OK))
      ∧ (0 < (groupTimeDiffs g.2).length →
          Option.map AvgAccuracy.timeDiff
            ({ time := 500, midiNote := 36,
               accuracy := some
                 { timeDiff := some 96, rushing := false, dragging := false,
                   wrongPad := false, missed := false, judgment := Tier.GOOD,
                   loopResults := [Tier.GOOD, Tier.GOOD, Tier.OK, Tier.OK, Tier.OK] } }
              : VisNote).accuracy
            = some (some ((groupTimeDiffs g.2).sum / ((groupTimeDiffs g.2).length : ℚ)))) :=
  averaging_majority_cascade fiveLoopState 2000 5 (by decide)
    { time := 500, midiNote := 36,
      accuracy := some
        { timeDiff := some 96, rushing := false, dragging := false,
          wrongPad := false, missed := false, judgment := Tier.GOOD,
          loopResults := [Tier.GOOD, Tier.GOOD, Tier.OK, Tier.OK, Tier.OK] } }
    (by decide)

/-- Promoting upcoming notes permutes no identity: `updateActiveNotes`
preserves the multiset of bucket ids and moves notes only from Upcoming to
Active. -/
theorem bucketIds_updateActiveNotes (u : GameState) :
    List.Perm (bucketIds u.updateActiveNotes) (bucketIds u) := by
  simp only [bucketIds, GameState.updateActiveNotes, List.map_append]
  have hp : List.Perm
      ((u.upcomingNotes.filter
          (fun n => decide (n.time ≤ u.currentTime + LOOKAHEAD_TIME))).map Note.id
        ++ (u.upcomingNotes.filter
          (fun n => !decide (n.time ≤ u.currentTime + LOOKAHEAD_TIME))).map Note.id)
      (u.upcomingNotes.map Note.id) := by
    rw [← List.map_append]
    exact (List.filter_append_perm _ u.upcomingNotes).map Note.id
  rw [← Multiset.coe_eq_coe]
  have hm := Multiset.coe_eq_coe.mpr hp
  rw [← Multiset.coe_add] at hm
  simp only [← Multiset.coe_add]
  rw [← hm]
  abel

/-- Sweeping missed notes preserves the multiset of bucket ids. -/
theorem bucketIds_checkMissedNotes (u : GameState) :
    List.Perm (bucketIds (u.checkMissedNotes).1) (bucketIds u) := by
  simp only [bucketIds, GameState.checkMissedNotes, List.map_append, List.map_map]
  have hp : List.Perm
      ((u.activeNotes.filter
          (fun n => decide (n.time < u.currentTime - TIMING_WINDOWS_MISS) && !n.judged)).map
            Note.id
        ++ (u.activeNotes.filter
          (fun n => !(decide (n.time < u.currentTime - TIMING_WINDOWS_MISS)
            && !n.judged))).map Note.id)
      (u.activeNotes.map Note.id) := by
    rw [← List.map_append]
    exact (List.filter_append_perm _ u.activeNotes).map Note.id
  rw [← Multiset.coe_eq_coe]
  have hm := Multiset.coe_eq_coe.mpr hp
  rw [← Multiset.coe_add] at hm
  simp only [← Multiset.coe_add]
  rw [← hm]
  abel

/-- Recording a hit on an active note preserves the multiset of bucket
ids. -/
theorem bucketIds_recordHit (u : GameState) (n : Note) (j : Judgment)
    (hmem : n ∈ u.activeNotes) :
    List.Perm (bucketIds (u.recordHit n j)) (bucketIds u) := by
  simp only [bucketIds, GameState.recordHit, List.map_append, List.map_cons, List.map_nil]
  have hp : List.Perm (u.activeNotes.map Note.id)
      (n.id :: (u.activeNotes.erase n).map Note.id) := by
    simpa using (List.perm_cons_erase hmem).map Note.id
  rw [← Multiset.coe_eq_coe]
  have hm := Multiset.coe_eq_coe.mpr hp
  rw [← Multiset.cons_coe, ← Multiset.singleton_add] at hm
  simp only [← Multiset.coe_add, Multiset.coe_singleton]
  rw [hm]
  abel

/-- `updateActiveNotes` only rearranges the pending (Upcoming/Active)
notes. -/
theorem updateActiveNotes_pending_mem (u : GameState) :
    ∀ n, n ∈ u.updateActiveNotes.upcomingNotes ++ u.updateActiveNotes.activeNotes →
      n ∈ u.upcomingNotes ++ u.activeNotes := by
  intro n hn
  simp only [GameState.updateActiveNotes, List.mem_append, List.mem_filter] at hn ⊢
  tauto

/-- `checkMissedNotes` shrinks the pending notes and only adds judged
records to Missed. -/
theorem checkMissedNotes_pending_mem (u : GameState) :
    (∀ n, n ∈ (u.checkMissedNotes).1.upcomingNotes ++ (u.checkMissedNotes).1.activeNotes →
      n ∈ u.upcomingNotes ++ u.activeNotes)
    ∧ (∀ n ∈ (u.checkMissedNotes).1.missedNotes, n ∈ u.missedNotes ∨ n.judged = true) := by
  constructor
  · intro n hn
    simp only [GameState.checkMissedNotes, List.mem_append, List.mem_filter] at hn ⊢
    tauto
  · intro n hn
    simp only [GameState.checkMissedNotes, List.mem_append, List.mem_map] at hn
    rcases hn with h | ⟨m, _, rfl⟩
    · exact Or.inl h
    · exact Or.inr rfl

/-- Existing missed records survive `checkMissedNotes`. -/
theorem checkMissedNotes_missed_persist (u : GameState) :
    ∀ n ∈ u.missedNotes, n ∈ (u.checkMissedNotes).1.missedNotes := by
  intro n hn
  simp only [GameState.checkMissedNotes, List.mem_append]
  exact Or.inl hn

/-- `recordHit` shrinks Active, fixes Upcoming/Missed and only adds a
judged record to Hit. -/
theorem recordHit_bucket_mem (u : GameState) (n : Note) (j : Judgment) :
    (∀ m ∈ (u.recordHit n j).activeNotes, m ∈ u.activeNotes)
    ∧ (u.recordHit n j).upcomingNotes = u.upcomingNotes
    ∧ (u.recordHit n j).missedNotes = u.missedNotes
    ∧ (∀ m ∈ (u.recordHit n j).hitNotes, m ∈ u.hitNotes ∨ m.judged = true)
    ∧ (u.recordHit n j).pattern = u.pattern := by
  refine ⟨?_, rfl, rfl, ?_, rfl⟩
  · intro m hm
    simp only [GameState.recordHit] at hm
    exact List.erase_subset _ _ hm
  · intro m hm
    simp only [GameState.recordHit, List.mem_append, List.mem_singleton] at hm
    rcases hm with h | rfl
    · exact Or.inl h
    · exact Or.inr rfl

/-- `start` changes only the clock and the flags. -/
theorem start_fields (now : ℚ) (s : GameState) :
    (GameState.start now s).upcomingNotes = s.upcomingNotes
    ∧ (GameState.start now s).activeNotes = s.activeNotes
    ∧ (GameState.start now s).hitNotes = s.hitNotes
    ∧ (GameState.start now s).missedNotes = s.missedNotes
    ∧ (GameState.start now s).pattern = s.pattern := by
  by_cases h1 : s.isPlaying <;> by_cases h2 : s.currentTime = 0 <;>
    simp [GameState.start, h1, h2]

/-- `pause` changes only the flags. -/
theorem pause_fields (s : GameState) :
    s.pause.upcomingNotes = s.upcomingNotes
    ∧ s.pause.activeNotes = s.activeNotes
    ∧ s.pause.hitNotes = s.hitNotes
    ∧ s.pause.missedNotes = s.missedNotes
    ∧ s.pause.pattern = s.pattern := by
  by_cases h : (!s.isPlaying || s.isPaused : Bool) <;> simp [GameState.pause, h]

/-- `resume` changes only the clock and the flags. -/
theorem resume_fields (now : ℚ) (s : GameState) :
    (GameState.resume now s).upcomingNotes = s.upcomingNotes
    ∧ (GameState.resume now s).activeNotes = s.activeNotes
    ∧ (GameState.resume now s).hitNotes = s.hitNotes
    ∧ (GameState.resume now s).missedNotes = s.missedNotes
    ∧ (GameState.resume now s).pattern = s.pattern := by
  by_cases h : s.isPaused
  · obtain ⟨h1, h2, h3, h4, h5⟩ := start_fields now ({ s with isPaused := false })
    simp only [GameState.resume, h, Bool.not_true, Bool.false_eq_true, if_false] at h1 h2 h3 h4 h5 ⊢
    exact ⟨h1, h2, h3, h4, h5⟩
  · simp [GameState.resume, h]

/-- `reset` rebuilds Upcoming from the pattern and empties the other
buckets. -/
theorem reset_fields (s : GameState) :
    s.reset.upcomingNotes
        = s.pattern.notes.map (fun n => { n with hit := false, judged := false })
    ∧ s.reset.activeNotes = []
    ∧ s.reset.hitNotes = []
    ∧ s.reset.missedNotes = []
    ∧ s.reset.pattern = s.pattern := by
  simp [GameState.reset, GameState.stop]

/-- The sequence-mode tick moves notes only through `updateActiveNotes` and
leaves Hit and Missed untouched. -/
theorem updateSequenceModeN_buckets (now : ℚ) (u : GameState) :
    (u.updateSequenceModeN now).1.upcomingNotes = u.updateActiveNotes.upcomingNotes
    ∧ (u.updateSequenceModeN now).1.activeNotes = u.updateActiveNotes.activeNotes
    ∧ (u.updateSequenceModeN now).1.hitNotes = u.hitNotes
    ∧ (u.updateSequenceModeN now).1.missedNotes = u.missedNotes
    ∧ (u.updateSequenceModeN now).1.pattern = u.pattern := by
  refine ⟨?_, ?_, ?_, ?_, ?_⟩ <;>
    (simp only [GameState.updateSequenceModeN, GameState.checkPatternComplete, GameState.stop]
     repeat' split
     all_goals rfl)

/-- One tick permutes no bucket identity, moves notes only forward
(pending stays pending or becomes judged), and fixes the pattern. -/
theorem update_inv_step (now : ℚ) (s : GameState) :
    List.Perm (bucketIds (GameState.update now s)) (bucketIds s)
    ∧ (∀ n, n ∈ (GameState.update now s).upcomingNotes
          ++ (GameState.update now s).activeNotes →
        n ∈ s.upcomingNotes ++ s.activeNotes)
    ∧ (∀ n, n ∈ (GameState.update now s).hitNotes
          ++ (GameState.update now s).missedNotes →
        n ∈ s.hitNotes ++ s.missedNotes ∨ n.judged = true)
    ∧ (GameState.update now s).pattern = s.pattern := by
  by_cases hseq : s.sequenceMode
  · have hupd : GameState.update now s = (s.updateSequenceModeN now).1 := by
      simp [GameState.update, GameState.updateN, hseq]
    obtain ⟨q1, q2, q3, q4, q5⟩ := updateSequenceModeN_buckets now s
    obtain ⟨a1, a2, a3, a4, a5, a6, a7, a8, a9, a10⟩ := updateActiveNotes_spec s
    rw [hupd]
    refine ⟨?_, ?_, ?_, ?_⟩
    · have hb : bucketIds (s.updateSequenceModeN now).1 = bucketIds s.updateActiveNotes := by
        simp [bucketIds, q1, q2, q3, q4, a8, a9]
      rw [hb]
      exact bucketIds_updateActiveNotes s
    · intro n hn
      rw [q1, q2] at hn
      exact updateActiveNotes_pending_mem s n hn
    · intro n hn
      rw [q3, q4] at hn
      exact Or.inl hn
    · rw [q5]
  · have hs : s.sequenceMode = false := by simpa using hseq
    rw [update_body now s hs]
    obtain ⟨c1, c2, c3, c4, c5, c6, c7, c8, c9, c10⟩ :=
      countdownStep_spec ({ s with currentTime := now - s.startTime.getD 0 } : GameState)
    obtain ⟨a1, a2, a3, a4, a5, a6, a7, a8, a9, a10⟩ :=
      updateActiveNotes_spec (({ s with currentTime := now - s.startTime.getD 0 } :
        GameState).countdownStep.1)
    have hcb : bucketIds (({ s with currentTime := now - s.startTime.getD 0 } :
        GameState).countdownStep.1) = bucketIds s := by
      simp [bucketIds, c6, c7, c8, c9]
    have hperm : List.Perm (bucketIds (({ s with currentTime := now - s.startTime.getD 0 } :
        GameState).countdownStep.1.updateActiveNotes)) (bucketIds s) := by
      rw [← hcb]
      exact bucketIds_updateActiveNotes _
    have hpend : ∀ n,
        n ∈ (({ s with currentTime := now - s.startTime.getD 0 } :
            GameState).countdownStep.1.updateActiveNotes).upcomingNotes
          ++ (({ s with currentTime := now - s.startTime.getD 0 } :
            GameState).countdownStep.1.updateActiveNotes).activeNotes →
        n ∈ s.upcomingNotes ++ s.activeNotes := by
      intro n hn
      have := updateActiveNotes_pending_mem _ n hn
      rwa [c6, c7] at this
    by_cases h0 : (({ s with currentTime := now - s.startTime.getD 0 } :
        GameState).countdownStep.1.updateActiveNotes).currentTime ≥ 0
    · simp only [h0, if_true]
      obtain ⟨m1, m2, m3, m4, m5, m6, m7, m8, m9, m10⟩ :=
        checkMissedNotes_spec (({ s with currentTime := now - s.startTime.getD 0 } :
          GameState).countdownStep.1.updateActiveNotes)
      obtain ⟨hm1, hm2⟩ :=
        checkMissedNotes_pending_mem (({ s with currentTime := now - s.startTime.getD 0 } :
          GameState).countdownStep.1.updateActiveNotes)
      obtain ⟨p1, p2, p3, p4, p5, p6, p7, p8, p9, p10, p11⟩ :=
        checkPatternComplete_spec ((({ s with currentTime := now - s.startTime.getD 0 } :
          GameState).countdownStep.1.updateActiveNotes).checkMissedNotes).1
      refine ⟨?_, ?_, ?_, ?_⟩
      · have hb : bucketIds ((((({ s with currentTime := now - s.startTime.getD 0 } :
            GameState).countdownStep.1.updateActiveNotes).checkMissedNotes).1.checkPatternComplete).1)
            = bucketIds (((({ s with currentTime := now - s.startTime.getD 0 } :
              GameState).countdownStep.1.updateActiveNotes).checkMissedNotes).1) := by
          simp [bucketIds, p7, p8, p9, p10]
        rw [hb]
        exact (bucketIds_checkMissedNotes _).trans hperm
      · intro n hn
        rw [p7, p8] at hn
        exact hpend n (hm1 n hn)
      · intro n hn
        rw [p9, p10, List.mem_append] at hn
        rcases hn with hn | hn
        · rw [m9] at hn
          rw [a8, c8] at hn
          exact Or.inl (List.mem_append_left _ hn)
        · rcases hm2 n hn with hn' | hn'
          · rw [a9, c9] at hn'
            exact Or.inl (List.mem_append_right _ hn')
          · exact Or.inr hn'
      · rw [p1, m1, a1, c1]
    · simp only [h0, if_false]
      refine ⟨hperm, hpend, ?_, ?_⟩
      · intro n hn
        rw [a8, c8, a9, c9] at hn
        exact Or.inl hn
      · rw [a1, c1]

/-- A tick never removes or rewrites an existing Hit or Missed record. -/
theorem update_hit_missed_persist (now : ℚ) (s : GameState) :
    (∀ n ∈ s.hitNotes, n ∈ (GameState.update now s).hitNotes)
    ∧ (∀ n ∈ s.missedNotes, n ∈ (GameState.update now s).missedNotes) := by
  by_cases hseq : s.sequenceMode
  · have hupd : GameState.update now s = (s.updateSequenceModeN now).1 := by
      simp [GameState.update, GameState.updateN, hseq]
    obtain ⟨_, _, q3, q4, _⟩ := updateSequenceModeN_buckets now s
    rw [hupd, q3, q4]
    exact ⟨fun n hn => hn, fun n hn => hn⟩
  · have hs : s.sequenceMode = false := by simpa using hseq
    rw [update_body now s hs]
    obtain ⟨c1, c2, c3, c4, c5, c6, c7, c8, c9, c10⟩ :=
      countdownStep_spec ({ s with currentTime := now - s.startTime.getD 0 } : GameState)
    obtain ⟨a1, a2, a3, a4, a5, a6, a7, a8, a9, a10⟩ :=
      updateActiveNotes_spec (({ s with currentTime := now - s.startTime.getD 0 } :
        GameState).countdownStep.1)
    by_cases h0 : (({ s with currentTime := now - s.startTime.getD 0 } :
        GameState).countdownStep.1.updateActiveNotes).currentTime ≥ 0
    · simp only [h0, if_true]
      obtain ⟨m1, m2, m3, m4, m5, m6, m7, m8, m9, m10⟩ :=
        checkMissedNotes_spec (({ s with currentTime := now - s.startTime.getD 0 } :
          GameState).countdownStep.1.updateActiveNotes)
      obtain ⟨p1, p2, p3, p4, p5, p6, p7, p8, p9, p10, p11⟩ :=
        checkPatternComplete_spec ((({ s with currentTime := now - s.startTime.getD 0 } :
          GameState).countdownStep.1.updateActiveNotes).checkMissedNotes).1
      constructor
      · intro n hn
        rw [p9, m9, a8, c8]
        exact hn
      · intro n hn
        rw [p10]
        refine checkMissedNotes_missed_persist _ n ?_
        rw [a9, c9]
        exact hn
    · simp only [h0, if_false]
      rw [a8, c8, a9, c9]
      exact ⟨fun n hn => hn, fun n hn => hn⟩

/-- No operation other than `reset` removes or rewrites an existing Hit or
Missed record. -/
theorem hit_missed_persist_step (s : GameState) (op : EngineOp) (hop : op.isReset = false) :
    (∀ n ∈ s.hitNotes, n ∈ (EngineOp.apply s op).hitNotes)
    ∧ (∀ n ∈ s.missedNotes, n ∈ (EngineOp.apply s op).missedNotes) := by
  cases op with
  | start now =>
      obtain ⟨_, _, h3, h4, _⟩ := start_fields now s
      simp only [EngineOp.apply]
      rw [h3, h4]
      exact ⟨fun n hn => hn, fun n hn => hn⟩
  | tick now => exact update_hit_missed_persist now s
  | recordHit n j =>
      simp only [EngineOp.apply]
      constructor
      · intro m hm
        simp only [GameState.recordHit, List.mem_append]
        exact Or.inl hm
      · intro m hm
        exact hm
  | pause =>
      obtain ⟨_, _, h3, h4, _⟩ := pause_fields s
      simp only [EngineOp.apply]
      rw [h3, h4]
      exact ⟨fun n hn => hn, fun n hn => hn⟩
  | resume now =>
      obtain ⟨_, _, h3, h4, _⟩ := resume_fields now s
      simp only [EngineOp.apply]
      rw [h3, h4]
      exact ⟨fun n hn => hn, fun n hn => hn⟩
  | reset => simp [EngineOp.isReset] at hop

/-- Hit and Missed records persist unchanged across any reset-free
operation sequence. -/
theorem hit_missed_persist (s : GameState) (ops : List EngineOp)
    (hops : ∀ op ∈ ops, op.isReset = false) :
    (∀ n ∈ s.hitNotes, n ∈ (applyOps s ops).hitNotes)
    ∧ (∀ n ∈ s.missedNotes, n ∈ (applyOps s ops).missedNotes) := by
  induction ops generalizing s with
  | nil => exact ⟨fun n hn => hn, fun n hn => hn⟩
  | cons op rest ih =>
      have hstep := hit_missed_persist_step s op (hops op (List.mem_cons_self op rest))
      have hrest := ih (EngineOp.apply s op) (fun o ho => hops o (List.mem_cons_of_mem op ho))
      exact ⟨fun n hn => hrest.1 n (hstep.1 n hn),
        fun n hn => hrest.2 n (hstep.2 n hn)⟩

/-- The lifecycle invariant of every reachable engine state: the bucket ids
are a permutation of the pattern ids, pending notes are unjudged, judged
notes sit in Hit/Missed, and the pattern value never changes. -/
theorem reachable_inv (p : Pattern) (s : GameState) (hwf : WFPattern p)
    (hr : Reachable p s) :
    List.Perm (bucketIds s) (p.notes.map Note.id)
    ∧ (∀ n ∈ s.upcomingNotes ++ s.activeNotes, n.judged = false)
    ∧ (∀ n ∈ s.hitNotes ++ s.missedNotes, n.judged = true)
    ∧ s.pattern = p := by
  induction hr with
  | init =>
      refine ⟨?_, ?_, ?_, rfl⟩
      · simpa [bucketIds, GameState.init] using
          List.Perm.refl (p.notes.map Note.id)
      · intro n hn
        simp only [GameState.init, List.append_nil] at hn
        exact hwf.2 n hn
      · intro n hn
        simp [GameState.init] at hn
  | @start now s1 hr ih =>
      obtain ⟨i1, i2, i3, i4⟩ := ih
      obtain ⟨f1, f2, f3, f4, f5⟩ := start_fields now s1
      refine ⟨?_, ?_, ?_, ?_⟩
      · have hb : bucketIds (GameState.start now s1) = bucketIds s1 := by
          simp [bucketIds, f1, f2, f3, f4]
        rw [hb]
        exact i1
      · rw [f1, f2]
        exact i2
      · rw [f3, f4]
        exact i3
      · rw [f5]
        exact i4
  | @tick now s1 hr ih =>
      obtain ⟨i1, i2, i3, i4⟩ := ih
      obtain ⟨u1, u2, u3, u4⟩ := update_inv_step now s1
      refine ⟨u1.trans i1, ?_, ?_, u4.trans i4⟩
      · intro n hn
        exact i2 n (u2 n hn)
      · intro n hn
        rcases u3 n hn with h | h
        · exact i3 n h
        · exact h
  | @recordHit n j s1 hr hmem ih =>
      obtain ⟨i1, i2, i3, i4⟩ := ih
      obtain ⟨r1, r2, r3, r4, r5⟩ := recordHit_bucket_mem s1 n j
      refine ⟨(bucketIds_recordHit s1 n j hmem).trans i1, ?_, ?_, r5.trans i4⟩
      · intro m hm
        rw [r2, List.mem_append] at hm
        rcases hm with hm | hm
        · exact i2 m (List.mem_append_left _ hm)
        · exact i2 m (List.mem_append_right _ (r1 m hm))
      · intro m hm
        rw [r3, List.mem_append] at hm
        rcases hm with hm | hm
        · rcases r4 m hm with h | h
          · exact i3 m (List.mem_append_left _ h)
          · exact h
        · exact i3 m (List.mem_append_right _ hm)
  | @pause s1 hr ih =>
      obtain ⟨i1, i2, i3, i4⟩ := ih
      obtain ⟨f1, f2, f3, f4, f5⟩ := pause_fields s1
      refine ⟨?_, ?_, ?_, ?_⟩
      · have hb : bucketIds s1.pause = bucketIds s1 := by
          simp [bucketIds, f1, f2, f3, f4]
        rw [hb]
        exact i1
      · rw [f1, f2]
        exact i2
      · rw [f3, f4]
        exact i3
      · rw [f5]
        exact i4
  | @resume now s1 hr ih =>
      obtain ⟨i1, i2, i3, i4⟩ := ih
      obtain ⟨f1, f2, f3, f4, f5⟩ := resume_fields now s1
      refine ⟨?_, ?_, ?_, ?_⟩
      · have hb : bucketIds (GameState.resume now s1) = bucketIds s1 := by
          simp [bucketIds, f1, f2, f3, f4]
        rw [hb]
        exact i1
      · rw [f1, f2]
        exact i2
      · rw [f3, f4]
        exact i3
      · rw [f5]
        exact i4
  | @reset s1 hr ih =>
      obtain ⟨i1, i2, i3, i4⟩ := ih
      obtain ⟨f1, f2, f3, f4, f5⟩ := reset_fields s1
      refine ⟨?_, ?_, ?_, ?_⟩
      · have hb : bucketIds s1.reset
            = (p.notes.map (fun n => ({ n with hit := false, judged := false } : Note))).map
                Note.id := by
          simp [bucketIds, f1, f2, f3, f4, i4]
        rw [hb, List.map_map]
        exact List.Perm.refl _
      · intro n hn
        rw [f1, f2, i4, List.append_nil, List.mem_map] at hn
        obtain ⟨m, _, rfl⟩ := hn
        rfl
      · intro n hn
        rw [f3, f4] at hn
        simp at hn
      · rw [f5]
        exact i4

/-- Claim C2. In every state reachable from construction by start, per-tick
update, recordHit (applied only to a note currently in Active), pause,
resume and reset over a well-formed pattern, every note of the pattern
belongs to exactly one of the four buckets (its id occurs exactly once
across Upcoming ++ Active ++ Hit ++ Missed); and once a note's judged flag
is true — equivalently, once it sits in Hit or Missed — its full record,
attached accuracy included, persists unmodified through any further
reset-free operation sequence.  (`reset` rebuilds Upcoming from the pattern
with every judged flag cleared, beginning a fresh lifecycle.) -/
theorem note_lifecycle_invariants (p : Pattern) (s : GameState)
    (hwf : WFPattern p) (hr : Reachable p s) :
    (∀ i ∈ p.notes.map Note.id, (bucketIds s).count i = 1)
    ∧ (∀ ops : List EngineOp, (∀ op ∈ ops, op.isReset = false) →
        (∀ n ∈ s.hitNotes, n.judged = true ∧ n ∈ (applyOps s ops).hitNotes)
        ∧ (∀ n ∈ s.missedNotes, n.judged = true ∧ n ∈ (applyOps s ops).missedNotes)) := by
  obtain ⟨i1, i2, i3, i4⟩ := reachable_inv p s hwf hr
  constructor
  · intro i hi
    rw [i1.count_eq]
    exact List.count_eq_one_of_mem hwf.1 hi
  · intro ops hops
    obtain ⟨hp1, hp2⟩ := hit_missed_persist s ops hops
    exact ⟨fun n hn => ⟨i3 n (List.mem_append_left _ hn), hp1 n hn⟩,
      fun n hn => ⟨i3 n (List.mem_append_right _ hn), hp2 n hn⟩⟩

theorem note_lifecycle_invariants_witness :
    ((patternTwoNotes.notes.map Note.id).Nodup ∧ ∀ n ∈ patternTwoNotes.notes, n.judged = false)
    ∧ (bucketIds (GameState.init patternTwoNotes)).count 0 = 1
    ∧ (bucketIds (GameState.init patternTwoNotes)).count 1 = 1 := by
  have h := note_lifecycle_invariants patternTwoNotes (GameState.init patternTwoNotes)
    ⟨by decide, by decide⟩ Reachable.init
  exact ⟨⟨by decide, by decide⟩, h.1 0 (by decide), h.1 1 (by decide)⟩

end Claims

end Stubblefield
